import Mathlib

/-!
Verification of the gomu mod-utils orchestration core (`MU.Run`, `RunThen`,
`waitThenClean`, `performThenClose`, `perform`) against its specification.

The embedding models `perform` as a pure function producing a trace of
observable events.  External collaborators (auth loading, repository
discovery, the dependency sorter, the interactive warning prompt, the
asynchronous `closed` cancellation flag, and the outcome of each pipeline
step) are supplied through an `Env` oracle.  The global `closed` flag is
read at the exact program points where the Go source reads it; the oracle
field `cancelAt` gives the index of the first read that observes `true`
(reads are monotone: once observed set, the flag stays set).
-/

namespace Gomu

/-- Model of `com.FileWrapper` (the `com` package is a collaborator of the
orchestration core): repository path, module identifier (`GetGoURL`),
resolved version (empty = unpinned) and the dependency module set read
from its manifest. -/
structure FileWrapper where
  Path : String
  modName : String
  Version : String
  deps : List String
  deriving DecidableEq

/-- The seven steps of the sequential sync pipeline in `perform`
(`updateOrCreateBranch`, `ModAddDeps`, `commit`, `sync`, `pullRequest`,
`removeBranchIfUnused`, `tag`). -/
inductive SyncStep
  | branch
  | modAddDeps
  | commit
  | syncPush
  | pullRequest
  | removeBranch
  | tag
  deriving DecidableEq

/-- Observable events of one wrapped run. -/
inductive Event
  | authFail
  | stash (path : String)
  | checkClosed (b : Bool)
  | printIndex (i total : Nat) (path : String)
  | printWarningLibs (libs : List String)
  | printWarningActions (acts : List String)
  | warn (ok : Bool)
  | dispatchPool (action : String) (path : String)
  | seqCall (action : String) (path : String)
  | alreadyVersioned (path : String)
  | step (s : SyncStep) (path : String)
  | stepFailure (s : SyncStep) (path : String)
  | waiterWait
  | cleanupStash (dirs : List String)
  | exitProc
  | callback
  deriving DecidableEq

/-- Model of `gomu.Options` (the flag-derived configuration). -/
structure Options where
  Action : String
  Branch : String := ""
  Commit : Bool := false
  PullRequest : Bool := false
  Tag : Bool := false
  SetVersion : String := ""
  IgnoreWarning : Bool := false
  DirectImport : Bool := false
  FilterDependencies : List String := []
  TargetDirectories : List String := []

/-- Model of the `MU` struct state that survives across the run
(`AllDirectories` and the error accumulator). -/
structure MU where
  AllDirectories : List String := []
  Errors : List String := []

/-- Oracle for the collaborator calls made by `perform`:
`authLoadOk` = `com.LoadAuth` succeeded with nonempty user and token;
`authSetupOk` = `authObject.Setup()` returned nil;
`discovered` = result of `PopulateLibsFromTargets`;
`chain`, `depCount` = result of `SortedDirectDeps`/`SortedRecursiveDeps`;
`warningOk` = answer of `ShowWarning`;
`cancelAt` = index of the first read of the global `closed` flag that
observes `true` (`none` = never set);
`stepFails` = whether a given pipeline step fails for a given repository
path. -/
structure Env where
  options : Options
  authLoadOk : Bool
  authSetupOk : Bool
  discovered : List String
  chain : List FileWrapper
  depCount : Nat
  warningOk : Bool
  cancelAt : Option Nat
  stepFails : String → SyncStep → Bool

/-- Value of the `closed` flag at its `r`-th read (0-based). -/
def closedAt (c : Option Nat) (r : Nat) : Bool :=
  match c with
  | none => false
  | some k => decide (k ≤ r)

/-- Modelled from the spec: one pipeline step of one repository.  The
bodies of `updateOrCreateBranch`, `commit`, `sync`, `pullRequest`,
`removeBranchIfUnused` and `tag` are not part of the analysed source; per
the spec, a failing step records a `StepFailure` and aborts only that
repository's remaining steps, so the pipeline threads a `failed` flag and
a step runs only while the flag is clear. -/
def runStep (env : Env) (path : String) (failed : Bool) (s : SyncStep) :
    List Event × Bool :=
  if failed then ([], true)
  else if env.stepFails path s then ([.stepFailure s path], true)
  else ([.step s path], false)

/-- Run a group of pipeline steps in order, threading the failure flag. -/
def runSteps (env : Env) (path : String) :
    Bool → List SyncStep → List Event × Bool
  | failed, [] => ([], failed)
  | failed, s :: ss =>
    let e := runStep env path failed s
    let es := runSteps env path e.2 ss
    (e.1 ++ es.1, es.2)

/-- The step groups of the sync pipeline that follow the branch step; in
the Go source one `closed` check precedes each group (the merge and commit
calls sit between the same pair of checks). -/
def syncGroups : List (List SyncStep) :=
  [[.modAddDeps, .commit], [.syncPush], [.pullRequest], [.removeBranch], [.tag]]

/-- Execute the check-guarded tail of one repository's sync pipeline:
before each group the `closed` flag is read; if it is set, `perform`
returns immediately (result flag `true` = early return).  Result carries
the trace, the next read index and the early-return flag. -/
def runGroups (env : Env) (path : String) :
    Bool → Nat → List (List SyncStep) → List Event × Nat × Bool
  | _, r, [] => ([], r, false)
  | failed, r, g :: gs =>
    if closedAt env.cancelAt r then ([.checkClosed true], r + 1, true)
    else
      let es := runSteps env path failed g
      let t := runGroups env path es.2 (r + 1) gs
      (.checkClosed false :: es.1 ++ t.1, t.2.1, t.2.2)

/-- The main loop of `perform` over the sorted chain: `idx` is the 1-based
printed index, `r` the next `closed`-read index.  Result: trace, final
read index, and whether the loop returned from `perform` early (so that
the trailing `waiter.Wait()` after the loop is not reached). -/
def performLoop (env : Env) :
    List FileWrapper → Nat → Nat → List Event × Nat × Bool
  | [], _, r => ([], r, false)
  | f :: fs, idx, r =>
    if closedAt env.cancelAt r then ([.checkClosed true, .waiterWait], r + 1, true)
    else if env.options.Action = "list" then
      let t := performLoop env fs (idx + 1) (r + 1)
      (.checkClosed false :: .printIndex idx env.depCount f.Path :: t.1, t.2.1, t.2.2)
    else if env.options.Action = "pull" ∨ env.options.Action = "reset" ∨
        env.options.Action = "workflow" then
      let t := performLoop env fs (idx + 1) (r + 1)
      (.checkClosed false :: .dispatchPool env.options.Action f.Path :: t.1, t.2.1, t.2.2)
    else if env.options.Action = "replace" ∨ env.options.Action = "test" then
      let t := performLoop env fs (idx + 1) (r + 1)
      (.checkClosed false :: .printIndex idx env.depCount f.Path ::
        .seqCall env.options.Action f.Path :: t.1, t.2.1, t.2.2)
    else if env.options.Action = "secret" then
      ([.checkClosed false], r + 1, true)
    else
      if f.Version ≠ "" then
        let t := performLoop env fs (idx + 1) (r + 1)
        (.checkClosed false :: .printIndex idx env.depCount f.Path ::
          .alreadyVersioned f.Path :: t.1, t.2.1, t.2.2)
      else
        let be := runStep env f.Path false .branch
        let ge := runGroups env f.Path be.2 (r + 1) syncGroups
        if ge.2.2 then
          (.checkClosed false :: .printIndex idx env.depCount f.Path ::
            be.1 ++ ge.1, ge.2.1, true)
        else
          let t := performLoop env fs (idx + 1) ge.2.1
          (.checkClosed false :: .printIndex idx env.depCount f.Path ::
            be.1 ++ ge.1 ++ t.1, t.2.1, t.2.2)

/-- Numbered repository lines of the sync warning
(`strconv.Itoa(count+1) + ") " + itr.File.GetGoURL()`). -/
def numberedLibs : Nat → List FileWrapper → List String
  | _, [] => []
  | i, f :: fs => (toString i ++ ") " ++ f.modName) :: numberedLibs (i + 1) fs

def warningLibsList (env : Env) : List String :=
  numberedLibs 1 env.chain

/-- The ordered list of step descriptions printed by the sync warning,
assembled exactly as in the Go source. -/
def warningActionsList (o : Options) : List String :=
  ["Sync action will:"]
    ++ (if o.Branch ≠ "" then ["- checkout (or create) branch " ++ o.Branch] else [])
    ++ ["- update mod files"]
    ++ (if o.Commit then ["- commit local changes (if any)"] else [])
    ++ (if o.PullRequest then ["- open pull request for changes (if any)"] else [])
    ++ (if o.Tag then
          (if o.SetVersion ≠ "" then ["- tag all dependencies " ++ o.SetVersion]
           else ["- increment tag version (if updated)"])
        else [])

/-- The sync confirmation block of `perform`: prints the affected
repositories and the step list; unless `IgnoreWarning` is set it asks
`ShowWarning`; on decline it calls `cleanupStash(libs)` and `os.Exit(-1)`
(second component `true` = the process exits). -/
def warnBlock (env : Env) : List Event × Bool :=
  if env.options.Action = "sync" then
    let pl := Event.printWarningLibs (warningLibsList env)
    let pa := Event.printWarningActions (warningActionsList env.options)
    if env.options.IgnoreWarning then ([pl, pa], false)
    else if env.warningOk then ([pl, pa, .warn true], false)
    else ([pl, pa, .warn false, .cleanupStash env.discovered, .exitProc], true)
  else ([], false)

/-- Trace model of `MU.perform`.  Result: trace, whether the process was
terminated by `os.Exit` inside `perform`, and the final value of
`mu.AllDirectories`.  The PullRequest credential gate mirrors the source:
when `LoadAuth` does not yield usable credentials and `Setup()` also
fails, `perform` returns at once (the constructed error is assigned to a
local variable and dropped), before discovery, stashing or sorting. -/
def performResult (mu : MU) (env : Env) : List Event × Bool × List String :=
  if env.options.PullRequest = true ∧ env.authLoadOk = false ∧ env.authSetupOk = false then
    ([.authFail], false, mu.AllDirectories)
  else
    let stashEvs := env.discovered.map Event.stash
    let wb := warnBlock env
    if wb.2 then (stashEvs ++ wb.1, true, env.discovered)
    else
      let lp := performLoop env env.chain 1 0
      (stashEvs ++ wb.1 ++ lp.1 ++ (if lp.2.2 then [] else [.waiterWait]),
        false, env.discovered)

/-- Trace model of `MU.Run`: `perform` runs on its own goroutine, the
caller blocks in `waitThenClean` which, once the closer fires, restores
the stashes over `mu.AllDirectories`.  If `perform` exited the process
(`os.Exit(-1)` on a declined warning), `waitThenClean` never resumes. -/
def runResult (mu : MU) (env : Env) : List Event × Bool :=
  let p := performResult mu env
  (if p.2.1 then p.1 else p.1 ++ [.cleanupStash p.2.2], p.2.1)

/-- Trace model of `MU.RunThen`: `Run`, then the completion callback. -/
def runThenTrace (mu : MU) (env : Env) : List Event :=
  let r := runResult mu env
  if r.2 then r.1 else r.1 ++ [.callback]

/-! ### Spec-modelled dependency sorter -/

/-- A repository is ready to be emitted when none of its in-set
dependencies is still pending (dependencies outside the working set are
not nodes of the graph). -/
def readyRepo (pendingIds : List String) (f : FileWrapper) : Bool :=
  f.deps.all (fun d => !(pendingIds.contains d))

/-- Modelled from the spec: Kahn's algorithm rounds — repeatedly emit, in
original discovery order, the repositories whose in-set dependencies have
all been emitted.  `sort.FileList.SortedRecursiveDeps` /
`SortedDirectDeps` are not part of the analysed source.  If a round emits
nothing the remaining repositories form a cycle and emission stops (the
`CycleDetected` path, unused by the claims below). -/
def kahnRounds : Nat → List FileWrapper → List FileWrapper
  | 0, _ => []
  | fuel + 1, pending =>
    let ids := pending.map (fun f => f.modName)
    let ready := pending.filter (readyRepo ids)
    if ready.isEmpty then []
    else ready ++ kahnRounds fuel (pending.filter (fun f => !(readyRepo ids f)))

/-- Whether a repository depends (its resolved set already being
transitive in recursive mode) on at least one filter module. -/
def dependsOnFilter (filter : List String) (f : FileWrapper) : Bool :=
  filter.any (fun m => f.deps.contains m)

/-- Modelled from the spec: `SortedRecursiveDeps` — build the topological
order over the full working set, then (for a nonempty filter) keep the
repositories depending on a filter module, preserving relative order;
`DepCount` is the size of the resulting chain. -/
def sortedRecursiveDeps (libs : List FileWrapper) (filter : List String) :
    List FileWrapper × Nat :=
  let topo := kahnRounds libs.length libs
  let chain := if filter.isEmpty then topo else topo.filter (dependsOnFilter filter)
  (chain, chain.length)

/-! ### Event classifiers -/

def isCheck : Event → Bool
  | .checkClosed _ => true
  | _ => false

def isStepEv : Event → Bool
  | .step _ _ => true
  | .stepFailure _ _ => true
  | _ => false

def isStepFailureEv : Event → Bool
  | .stepFailure _ _ => true
  | _ => false

def isDispatch : Event → Bool
  | .dispatchPool _ _ => true
  | _ => false

def isPrintIndex : Event → Bool
  | .printIndex _ _ _ => true
  | _ => false

def isCleanup : Event → Bool
  | .cleanupStash _ => true
  | _ => false

def isCallback : Event → Bool
  | .callback => true
  | _ => false

/-- The repository path an event mentions (empty for path-free events). -/
def pathOf : Event → String
  | .stash p => p
  | .printIndex _ _ p => p
  | .dispatchPool _ p => p
  | .seqCall _ p => p
  | .alreadyVersioned p => p
  | .step _ p => p
  | .stepFailure _ p => p
  | _ => ""

/-- Events that the main loop of `perform` can emit. -/
def loopEvent : Event → Bool
  | .checkClosed _ => true
  | .printIndex _ _ _ => true
  | .dispatchPool _ _ => true
  | .seqCall _ _ => true
  | .alreadyVersioned _ => true
  | .step _ _ => true
  | .stepFailure _ _ => true
  | .waiterWait => true
  | _ => false

/-! ### Classification lemmas -/

lemma countP_zero_of {p : Event → Bool} {l : List Event}
    (h : ∀ e ∈ l, p e = false) : l.countP p = 0 :=
  List.countP_eq_zero.2 (fun a ha => by simp [h a ha])

lemma runStep_mem {env : Env} {path : String} {failed : Bool} {s : SyncStep}
    {e : Event} (h : e ∈ (runStep env path failed s).1) :
    isStepEv e = true ∧ pathOf e = path := by
  unfold runStep at h
  split at h
  · simp at h
  · split at h <;> simp at h <;> subst h <;> simp [isStepEv, pathOf]

lemma runSteps_mem {env : Env} {path : String} :
    ∀ {failed : Bool} {ss : List SyncStep} {e : Event},
      e ∈ (runSteps env path failed ss).1 → isStepEv e = true ∧ pathOf e = path := by
  intro failed ss
  induction ss generalizing failed with
  | nil => intro e h; simp [runSteps] at h
  | cons s ss ih =>
    intro e h
    simp only [runSteps, List.mem_append] at h
    rcases h with h | h
    · exact runStep_mem h
    · exact ih h

lemma loopEvent_of_isStepEv {e : Event} (h : isStepEv e = true) :
    loopEvent e = true := by
  cases e <;> simp [isStepEv] at h <;> simp [loopEvent]

lemma loopEvent_of_isCheck {e : Event} (h : isCheck e = true) :
    loopEvent e = true := by
  cases e <;> simp [isCheck] at h <;> simp [loopEvent]

lemma runGroups_mem {env : Env} {path : String} :
    ∀ {failed : Bool} {r : Nat} {gs : List (List SyncStep)} {e : Event},
      e ∈ (runGroups env path failed r gs).1 →
        isCheck e = true ∨ (isStepEv e = true ∧ pathOf e = path) := by
  intro failed r gs
  induction gs generalizing failed r with
  | nil => intro e h; simp [runGroups] at h
  | cons g gs ih =>
    intro e h
    simp only [runGroups] at h
    split at h
    · simp at h; subst h; simp [isCheck]
    · simp at h
      rcases h with h | h | h
      · subst h; simp [isCheck]
      · exact Or.inr (runSteps_mem h)
      · exact ih h

lemma performLoop_mem {env : Env} :
    ∀ {fs : List FileWrapper} {idx r : Nat} {e : Event},
      e ∈ (performLoop env fs idx r).1 → loopEvent e = true := by
  intro fs
  induction fs with
  | nil => intro idx r e h; simp [performLoop] at h
  | cons f fs ih =>
    intro idx r e h
    simp only [performLoop] at h
    split at h
    · simp at h; rcases h with h | h <;> subst h <;> simp [loopEvent]
    · split at h
      · simp at h
        rcases h with h | h | h
        · subst h; simp [loopEvent]
        · subst h; simp [loopEvent]
        · exact ih h
      · split at h
        · simp at h
          rcases h with h | h | h
          · subst h; simp [loopEvent]
          · subst h; simp [loopEvent]
          · exact ih h
        · split at h
          · simp at h
            rcases h with h | h | h | h
            · subst h; simp [loopEvent]
            · subst h; simp [loopEvent]
            · subst h; simp [loopEvent]
            · exact ih h
          · split at h
            · simp at h; subst h; simp [loopEvent]
            · split at h
              · simp at h
                rcases h with h | h | h | h
                · subst h; simp [loopEvent]
                · subst h; simp [loopEvent]
                · subst h; simp [loopEvent]
                · exact ih h
              · split at h
                · simp at h
                  rcases h with h | h | h | h
                  · subst h; simp [loopEvent]
                  · subst h; simp [loopEvent]
                  · exact loopEvent_of_isStepEv (runStep_mem h).1
                  · rcases runGroups_mem h with hc | ⟨hs, _⟩
                    · exact loopEvent_of_isCheck hc
                    · exact loopEvent_of_isStepEv hs
                · simp at h
                  rcases h with h | h | h | h | h
                  · subst h; simp [loopEvent]
                  · subst h; simp [loopEvent]
                  · exact loopEvent_of_isStepEv (runStep_mem h).1
                  · rcases runGroups_mem h with hc | ⟨hs, _⟩
                    · exact loopEvent_of_isCheck hc
                    · exact loopEvent_of_isStepEv hs
                  · exact ih h

lemma loopEvent_not_cleanup {e : Event} (h : loopEvent e = true) :
    isCleanup e = false := by
  cases e <;> simp [loopEvent] at h ⊢ <;> rfl

lemma loopEvent_not_callback {e : Event} (h : loopEvent e = true) :
    isCallback e = false := by
  cases e <;> simp [loopEvent] at h ⊢ <;> rfl

lemma performLoop_countP_cleanup (env : Env) (fs : List FileWrapper) (idx r : Nat) :
    (performLoop env fs idx r).1.countP isCleanup = 0 :=
  countP_zero_of (fun _ he => loopEvent_not_cleanup (performLoop_mem he))

lemma stash_countP_cleanup (l : List String) :
    (l.map Event.stash).countP isCleanup = 0 :=
  countP_zero_of (fun e he => by
    rcases List.mem_map.1 he with ⟨x, _, hx⟩
    subst hx; rfl)

/-! ### Shape lemmas for `performResult` -/

lemma performResult_auth (mu : MU) {env : Env}
    (h : env.options.PullRequest = true ∧ env.authLoadOk = false ∧ env.authSetupOk = false) :
    performResult mu env = ([.authFail], false, mu.AllDirectories) := by
  unfold performResult
  rw [if_pos h]

lemma performResult_exit (mu : MU) {env : Env}
    (hpr : ¬(env.options.PullRequest = true ∧ env.authLoadOk = false ∧ env.authSetupOk = false))
    (hx : (warnBlock env).2 = true) :
    performResult mu env =
      (env.discovered.map Event.stash ++ (warnBlock env).1, true, env.discovered) := by
  unfold performResult
  rw [if_neg hpr]
  simp [hx]

lemma performResult_run (mu : MU) {env : Env}
    (hpr : ¬(env.options.PullRequest = true ∧ env.authLoadOk = false ∧ env.authSetupOk = false))
    (hx : (warnBlock env).2 = false) :
    performResult mu env =
      (env.discovered.map Event.stash ++ (warnBlock env).1
         ++ (performLoop env env.chain 1 0).1
         ++ (if (performLoop env env.chain 1 0).2.2 then [] else [.waiterWait]),
       false, env.discovered) := by
  unfold performResult
  rw [if_neg hpr]
  simp [hx]

lemma warnBlock_exit_trace {env : Env} (h : (warnBlock env).2 = true) :
    (warnBlock env).1 =
      [.printWarningLibs (warningLibsList env),
       .printWarningActions (warningActionsList env.options),
       .warn false, .cleanupStash env.discovered, .exitProc] := by
  by_cases hs : env.options.Action = "sync"
  · by_cases hi : env.options.IgnoreWarning
    · simp [warnBlock, hs, hi] at h
    · by_cases hw : env.warningOk
      · simp [warnBlock, hs, hi, hw] at h
      · simp [warnBlock, hs, hi, hw]
  · simp [warnBlock, hs] at h

lemma warnBlock_exit_flag {env : Env} (h : (warnBlock env).2 = true) :
    env.options.Action = "sync" ∧ env.options.IgnoreWarning = false ∧
      env.warningOk = false := by
  by_cases hs : env.options.Action = "sync"
  · by_cases hi : env.options.IgnoreWarning
    · simp [warnBlock, hs, hi] at h
    · by_cases hw : env.warningOk
      · simp [warnBlock, hs, hi, hw] at h
      · simp_all
  · simp [warnBlock, hs] at h

lemma warnBlock_no_exit_mem {env : Env} (h : (warnBlock env).2 = false)
    {e : Event} (he : e ∈ (warnBlock env).1) :
    e = .printWarningLibs (warningLibsList env) ∨
    e = .printWarningActions (warningActionsList env.options) ∨ e = .warn true := by
  by_cases hs : env.options.Action = "sync"
  · by_cases hi : env.options.IgnoreWarning
    · simp [warnBlock, hs, hi] at he
      tauto
    · by_cases hw : env.warningOk
      · simp [warnBlock, hs, hi, hw] at he
        tauto
      · simp [warnBlock, hs, hi, hw] at h
  · simp [warnBlock, hs] at he

lemma warnBlock_no_exit_countP_cleanup {env : Env} (h : (warnBlock env).2 = false) :
    (warnBlock env).1.countP isCleanup = 0 :=
  countP_zero_of (fun e he => by
    rcases warnBlock_no_exit_mem h he with h' | h' | h' <;> subst h' <;> rfl)

lemma stash_not_cleanup {l : List String} {ds : List String}
    (h : Event.cleanupStash ds ∈ l.map Event.stash) : False := by
  rcases List.mem_map.1 h with ⟨x, _, hx⟩
  simp at hx

/-! ### Claim C1 -/

/-- Claim C1: on every exit path of a wrapped run — normal completion,
recorded errors, cooperative cancellation, or the user declining the sync
confirmation (where `perform` itself runs `cleanupStash` and then
`os.Exit(-1)`, so `waitThenClean` never fires) — the restore of shelved
changes is invoked exactly once, and always over the full set of
discovered repository directories. -/
theorem C1_cleanup_exactly_once (mu : MU) (env : Env) :
    (runResult mu env).1.countP isCleanup = 1 ∧
    (∀ ds, Event.cleanupStash ds ∈ (runResult mu env).1 →
      ds = (performResult mu env).2.2) := by
  by_cases hpr : (env.options.PullRequest = true ∧ env.authLoadOk = false ∧
      env.authSetupOk = false)
  · have h := performResult_auth mu hpr
    constructor
    · simp [runResult, h, List.countP_cons, isCleanup]
    · intro ds hds
      simp [runResult, h] at hds
      simp [h, hds]
  · by_cases hx : (warnBlock env).2 = true
    · have h := performResult_exit mu hpr hx
      have ht := warnBlock_exit_trace hx
      constructor
      · simp [runResult, h, ht, List.countP_append, List.countP_cons,
          stash_countP_cleanup, isCleanup]
      · intro ds hds
        have hst : ∀ ds' : List String,
            Event.cleanupStash ds' ∉ env.discovered.map Event.stash :=
          fun _ hm => stash_not_cleanup hm
        simp [runResult, h, ht, hst] at hds
        simp [h, hds]
    · rw [Bool.not_eq_true] at hx
      have h := performResult_run mu hpr hx
      have h4 : (if (performLoop env env.chain 1 0).2.2 then ([] : List Event)
          else [.waiterWait]).countP isCleanup = 0 := by
        split <;> simp [isCleanup]
      constructor
      · simp [runResult, h, List.countP_append, List.countP_cons,
          stash_countP_cleanup, warnBlock_no_exit_countP_cleanup hx,
          performLoop_countP_cleanup, h4, isCleanup]
      · intro ds hds
        have hwo : Event.cleanupStash ds ∉
            (if (performLoop env env.chain 1 0).2.2 then ([] : List Event)
             else [.waiterWait]) := by
          split <;> simp
        have hlp : Event.cleanupStash ds ∉ (performLoop env env.chain 1 0).1 := by
          intro hm
          have := loopEvent_not_cleanup (performLoop_mem hm)
          simp [isCleanup] at this
        have hwb : Event.cleanupStash ds ∉ (warnBlock env).1 := by
          intro hm
          rcases warnBlock_no_exit_mem hx hm with h' | h' | h' <;> simp at h'
        have hst : Event.cleanupStash ds ∉ env.discovered.map Event.stash :=
          fun hm => stash_not_cleanup hm
        simp [runResult, h, hlp, hwb, hst, hwo] at hds
        simp [h, hds]

/-! ### Claim C10 -/

/-- Claim C10: with the `PullRequest` option set, when `LoadAuth` yields
no usable credentials and the interactive `Setup()` also fails, `perform`
returns before any discovery, stashing, sorting or action execution, the
`MU` state is untouched, and the constructed error is dropped (no
`StepFailure`-style error is recorded). -/
theorem C10_auth_failure_early_return (mu : MU) (env : Env)
    (h1 : env.options.PullRequest = true) (h2 : env.authLoadOk = false)
    (h3 : env.authSetupOk = false) :
    performResult mu env = ([.authFail], false, mu.AllDirectories) ∧
    (performResult mu env).1.countP isStepFailureEv = 0 := by
  have h := performResult_auth mu ⟨h1, h2, h3⟩
  exact ⟨h, by rw [h]; simp [List.countP_cons, isStepFailureEv]⟩

/-- Concrete environment exercising the C10 credential-failure path. -/
def envC10 : Env :=
  { options := { Action := "sync", PullRequest := true }
    authLoadOk := false, authSetupOk := false
    discovered := ["X"], chain := [], depCount := 0
    warningOk := true, cancelAt := none, stepFails := fun _ _ => false }

theorem C10_auth_failure_early_return_witness :
    performResult {} envC10 = ([.authFail], false, []) ∧
    (performResult {} envC10).1.countP isStepFailureEv = 0 :=
  C10_auth_failure_early_return {} envC10 rfl rfl rfl

/-! ### Claim C6 -/

def repoA : FileWrapper := { Path := "A", modName := "A", Version := "", deps := ["B", "C"] }

def repoB : FileWrapper := { Path := "B", modName := "B", Version := "", deps := ["C"] }

def repoC : FileWrapper := { Path := "C", modName := "C", Version := "", deps := [] }

/-- Environment for the {A,B,C} scenario: discovery order [A,B,C], A
requires B (transitively C), B requires C, C requires nothing; the chain
and count come from the recursive-mode sorter, action is "list". -/
def env6 : Env :=
  { options := { Action := "list" }
    authLoadOk := true, authSetupOk := true
    discovered := ["A", "B", "C"]
    chain := (sortedRecursiveDeps [repoA, repoB, repoC] []).1
    depCount := (sortedRecursiveDeps [repoA, repoB, repoC] []).2
    warningOk := true, cancelAt := none, stepFails := fun _ _ => false }

/-- Claim C6: for {A,B,C} with A requiring B, B requiring C and C
requiring nothing, the recursive-mode build yields Chain = [C,B,A] with
DepCount = 3, and the "list" action reports them in exactly that order
with ordinal indices 1/3, 2/3, 3/3. -/
theorem C6_scenario_chain_and_list :
    (sortedRecursiveDeps [repoA, repoB, repoC] []).1.map (fun f => f.Path) =
      ["C", "B", "A"] ∧
    (sortedRecursiveDeps [repoA, repoB, repoC] []).2 = 3 ∧
    (performResult {} env6).1.filter isPrintIndex =
      [.printIndex 1 3 "C", .printIndex 2 3 "B", .printIndex 3 3 "A"] := by
  refine ⟨?_, ?_, ?_⟩ <;> rfl

/-! ### Claim C4 -/

/-- Claim C4: before the sync action begins, `perform` prints the list of
affected repositories and the ordered list of steps; unless
`IgnoreWarning` is set it then asks for confirmation, and a declined
confirmation aborts the run with `cleanupStash` running before
`os.Exit(-1)` — no pipeline step, dispatch or further event happens. -/
theorem C4_sync_confirmation_gate (mu : MU) (env : Env)
    (hA : env.options.Action = "sync")
    (hauth : env.options.PullRequest = false ∨ env.authLoadOk = true ∨
      env.authSetupOk = true) :
    ((performResult mu env).1.take (env.discovered.length + 2) =
        env.discovered.map Event.stash ++
          [.printWarningLibs (warningLibsList env),
           .printWarningActions (warningActionsList env.options)]) ∧
    (env.options.IgnoreWarning = false →
      (performResult mu env).1.take (env.discovered.length + 3) =
        env.discovered.map Event.stash ++
          [.printWarningLibs (warningLibsList env),
           .printWarningActions (warningActionsList env.options),
           .warn env.warningOk]) ∧
    (env.options.IgnoreWarning = false → env.warningOk = false →
      performResult mu env =
        (env.discovered.map Event.stash ++
           [.printWarningLibs (warningLibsList env),
            .printWarningActions (warningActionsList env.options),
            .warn false, .cleanupStash env.discovered, .exitProc],
         true, env.discovered)) ∧
    (env.options.IgnoreWarning = true →
      ∀ b, Event.warn b ∉ (performResult mu env).1) := by
  have hpr : ¬(env.options.PullRequest = true ∧ env.authLoadOk = false ∧
      env.authSetupOk = false) := by
    rcases hauth with h | h | h <;> simp [h]
  by_cases hi : env.options.IgnoreWarning = true
  · have hwb1 : (warnBlock env).1 =
        [.printWarningLibs (warningLibsList env),
         .printWarningActions (warningActionsList env.options)] := by
      simp [warnBlock, hA, hi]
    have hwb2 : (warnBlock env).2 = false := by simp [warnBlock, hA, hi]
    have h := performResult_run mu hpr hwb2
    refine ⟨?_, by simp [hi], by simp [hi], ?_⟩
    · rw [h]
      simp only [hwb1, List.append_assoc]
      rw [show (2 : Nat) = [Event.printWarningLibs (warningLibsList env),
        Event.printWarningActions (warningActionsList env.options)].length + 0 from rfl]
      rw [← Nat.add_assoc]
      rw [show env.discovered.length +
          [Event.printWarningLibs (warningLibsList env),
           Event.printWarningActions (warningActionsList env.options)].length =
          (env.discovered.map Event.stash ++
           [Event.printWarningLibs (warningLibsList env),
            Event.printWarningActions (warningActionsList env.options)]).length by
        simp]
      rw [← List.append_assoc, List.take_append]
      simp
    · intro _ b hb
      rw [h] at hb
      simp only at hb
      rcases List.mem_append.1 hb with hb | hb
      · rcases List.mem_append.1 hb with hb | hb
        · rcases List.mem_append.1 hb with hb | hb
          · rcases List.mem_map.1 hb with ⟨x, _, hx⟩
            simp at hx
          · rw [hwb1] at hb
            simp at hb
        · have := performLoop_mem hb
          simp [loopEvent] at this
      · revert hb
        split <;> simp
  · rw [Bool.not_eq_true] at hi
    by_cases hw : env.warningOk = true
    · have hwb1 : (warnBlock env).1 =
          [.printWarningLibs (warningLibsList env),
           .printWarningActions (warningActionsList env.options), .warn true] := by
        simp [warnBlock, hA, hi, hw]
      have hwb2 : (warnBlock env).2 = false := by simp [warnBlock, hA, hi, hw]
      have h := performResult_run mu hpr hwb2
      refine ⟨?_, ?_, by simp [hw], by simp [hi]⟩
      · rw [h]
        simp only [hwb1, List.append_assoc]
        rw [show (2 : Nat) = [Event.printWarningLibs (warningLibsList env),
          Event.printWarningActions (warningActionsList env.options)].length + 0 from rfl]
        rw [← Nat.add_assoc]
        rw [show env.discovered.length +
            [Event.printWarningLibs (warningLibsList env),
             Event.printWarningActions (warningActionsList env.options)].length =
            (env.discovered.map Event.stash ++
             [Event.printWarningLibs (warningLibsList env),
              Event.printWarningActions (warningActionsList env.options)]).length by
          simp]
        have hsplit : env.discovered.map Event.stash ++
            ([Event.printWarningLibs (warningLibsList env),
              Event.printWarningActions (warningActionsList env.options), .warn true] ++
             ((performLoop env env.chain 1 0).1 ++
              (if (performLoop env env.chain 1 0).2.2 then [] else [.waiterWait]))) =
            (env.discovered.map Event.stash ++
             [Event.printWarningLibs (warningLibsList env),
              Event.printWarningActions (warningActionsList env.options)]) ++
            (Event.warn true ::
             ((performLoop env env.chain 1 0).1 ++
              (if (performLoop env env.chain 1 0).2.2 then [] else [.waiterWait]))) := by
          simp
        rw [hsplit, List.take_append]
        simp
      · intro _
        rw [h, hw]
        simp only [hwb1, List.append_assoc]
        rw [show (3 : Nat) = [Event.printWarningLibs (warningLibsList env),
          Event.printWarningActions (warningActionsList env.options),
          Event.warn true].length + 0 from rfl]
        rw [← Nat.add_assoc]
        rw [show env.discovered.length +
            [Event.printWarningLibs (warningLibsList env),
             Event.printWarningActions (warningActionsList env.options),
             Event.warn true].length =
            (env.discovered.map Event.stash ++
             [Event.printWarningLibs (warningLibsList env),
              Event.printWarningActions (warningActionsList env.options),
              Event.warn true]).length by simp]
        rw [← List.append_assoc, List.take_append]
        simp
    · rw [Bool.not_eq_true] at hw
      have hwb2 : (warnBlock env).2 = true := by simp [warnBlock, hA, hi, hw]
      have h := performResult_exit mu hpr hwb2
      have ht := warnBlock_exit_trace hwb2
      refine ⟨?_, ?_, ?_, by simp [hi]⟩
      · rw [h]
        simp only [ht]
        rw [show (2 : Nat) = [Event.printWarningLibs (warningLibsList env),
          Event.printWarningActions (warningActionsList env.options)].length + 0 from rfl]
        rw [← Nat.add_assoc]
        rw [show env.discovered.length +
            [Event.printWarningLibs (warningLibsList env),
             Event.printWarningActions (warningActionsList env.options)].length =
            (env.discovered.map Event.stash ++
             [Event.printWarningLibs (warningLibsList env),
              Event.printWarningActions (warningActionsList env.options)]).length by
          simp]
        have hsplit : env.discovered.map Event.stash ++
            [Event.printWarningLibs (warningLibsList env),
             Event.printWarningActions (warningActionsList env.options),
             Event.warn false, .cleanupStash env.discovered, .exitProc] =
            (env.discovered.map Event.stash ++
             [Event.printWarningLibs (warningLibsList env),
              Event.printWarningActions (warningActionsList env.options)]) ++
            [Event.warn false, .cleanupStash env.discovered, .exitProc] := by
          simp
        rw [hsplit, List.take_append]
        simp
      · intro _
        rw [h, hw]
        simp only [ht]
        rw [show (3 : Nat) = [Event.printWarningLibs (warningLibsList env),
          Event.printWarningActions (warningActionsList env.options),
          Event.warn false].length + 0 from rfl]
        rw [← Nat.add_assoc]
        rw [show env.discovered.length +
            [Event.printWarningLibs (warningLibsList env),
             Event.printWarningActions (warningActionsList env.options),
             Event.warn false].length =
            (env.discovered.map Event.stash ++
             [Event.printWarningLibs (warningLibsList env),
              Event.printWarningActions (warningActionsList env.options),
              Event.warn false]).length by simp]
        have hsplit : env.discovered.map Event.stash ++
            [Event.printWarningLibs (warningLibsList env),
             Event.printWarningActions (warningActionsList env.options),
             Event.warn false, .cleanupStash env.discovered, .exitProc] =
            (env.discovered.map Event.stash ++
             [Event.printWarningLibs (warningLibsList env),
              Event.printWarningActions (warningActionsList env.options),
              Event.warn false]) ++
            [Event.cleanupStash env.discovered, .exitProc] := by
          simp
        rw [hsplit, List.take_append]
        simp
      · intro _ _
        rw [h, ht]

/-- Concrete environment for the C4 witness: sync action, declined
confirmation. -/
def envC4 : Env :=
  { options := { Action := "sync" }
    authLoadOk := true, authSetupOk := true
    discovered := ["R"], chain := [repoC], depCount := 1
    warningOk := false, cancelAt := none, stepFails := fun _ _ => false }

/-! ### Sync pipeline analysis (for C3 and C5) -/

/-- All seven pipeline steps in source order: `updateOrCreateBranch`,
then the five check-guarded groups. -/
def syncStepList : List SyncStep :=
  [.branch, .modAddDeps, .commit, .syncPush, .pullRequest, .removeBranch, .tag]

/-- The step events one repository's pipeline produces: steps run in
order until the first failure, which is recorded as a `StepFailure` and
aborts the remaining steps of this repository only. -/
def stepsTrace (env : Env) (p : String) : List SyncStep → List Event
  | [] => []
  | s :: ss =>
    if env.stepFails p s then [.stepFailure s p]
    else .step s p :: stepsTrace env p ss

def expectedPipeline (env : Env) (p : String) : List Event :=
  stepsTrace env p syncStepList

def catLists : List (List SyncStep) → List SyncStep
  | [] => []
  | g :: gs => g ++ catLists gs

lemma branch_cat_syncGroups :
    SyncStep.branch :: catLists syncGroups = syncStepList := rfl

/-- Step events of one repository's pipeline, as seen in a trace. -/
def stepEvOfPath (p : String) (e : Event) : Bool :=
  isStepEv e && (pathOf e == p)

lemma runSteps_failed {env : Env} {p : String} :
    ∀ ss, runSteps env p true ss = ([], true) := by
  intro ss
  induction ss with
  | nil => rfl
  | cons s ss ih => simp [runSteps, runStep, ih]

lemma runSteps_append {env : Env} {p : String} :
    ∀ (l₁ l₂ : List SyncStep) (failed : Bool),
      runSteps env p failed (l₁ ++ l₂) =
        ((runSteps env p failed l₁).1 ++
           (runSteps env p (runSteps env p failed l₁).2 l₂).1,
         (runSteps env p (runSteps env p failed l₁).2 l₂).2) := by
  intro l₁
  induction l₁ with
  | nil => intro l₂ failed; simp [runSteps]
  | cons s l₁ ih => intro l₂ failed; simp [runSteps, ih]

lemma runSteps_false_stepsTrace {env : Env} {p : String} :
    ∀ ss, (runSteps env p false ss).1 = stepsTrace env p ss := by
  intro ss
  induction ss with
  | nil => rfl
  | cons s ss ih =>
    by_cases hf : env.stepFails p s
    · simp [runSteps, runStep, stepsTrace, hf, runSteps_failed]
    · simp [runSteps, runStep, stepsTrace, hf, ih]

lemma runSteps_filter_same {env : Env} {p : String} {failed : Bool}
    {ss : List SyncStep} :
    (runSteps env p failed ss).1.filter (stepEvOfPath p) =
      (runSteps env p failed ss).1 :=
  List.filter_eq_self.2 (fun e he => by
    rcases runSteps_mem he with ⟨h1, h2⟩
    simp [stepEvOfPath, h1, h2])

lemma runSteps_filter_other {env : Env} {p q : String} {failed : Bool}
    {ss : List SyncStep} (hq : q ≠ p) :
    (runSteps env p failed ss).1.filter (stepEvOfPath q) = [] := by
  rw [List.filter_eq_nil_iff]
  intro e he
  rcases runSteps_mem he with ⟨h1, h2⟩
  simp [stepEvOfPath, h1, h2, Ne.symm hq]

lemma runGroups_none_early {env : Env} {p : String}
    (h : env.cancelAt = none) :
    ∀ gs (failed : Bool) (r : Nat), (runGroups env p failed r gs).2.2 = false := by
  intro gs
  induction gs with
  | nil => intro failed r; rfl
  | cons g gs ih => intro failed r; simp [runGroups, h, closedAt, ih]

lemma filter_cons_neg {p : Event → Bool} {e : Event} {l : List Event}
    (h : p e = false) : (e :: l).filter p = l.filter p := by
  simp [List.filter_cons, h]

lemma runGroups_none_filter {env : Env} {p : String}
    (h : env.cancelAt = none) :
    ∀ gs (failed : Bool) (r : Nat) (q : String),
      (runGroups env p failed r gs).1.filter (stepEvOfPath q) =
        (runSteps env p failed (catLists gs)).1.filter (stepEvOfPath q) := by
  intro gs
  induction gs with
  | nil => intro failed r q; rfl
  | cons g gs ih =>
    intro failed r q
    simp [runGroups, h, closedAt, catLists, runSteps_append, List.filter_append,
      stepEvOfPath, isStepEv, ih]

/-- Every step event of the loop trace mentions the path of one of the
repositories in the processed list (any action, any cancellation). -/
lemma performLoop_steps_path {env : Env} :
    ∀ {fs : List FileWrapper} {idx r : Nat} {e : Event},
      e ∈ (performLoop env fs idx r).1 → isStepEv e = true →
      pathOf e ∈ fs.map (fun x => x.Path) := by
  intro fs
  induction fs with
  | nil => intro idx r e h _; simp [performLoop] at h
  | cons f fs ih =>
    intro idx r e h hstep
    have htail : ∀ {idx' r' : Nat}, e ∈ (performLoop env fs idx' r').1 →
        pathOf e ∈ (f :: fs).map (fun x => x.Path) := by
      intro idx' r' h'
      exact List.mem_cons_of_mem _ (ih h' hstep)
    simp only [performLoop] at h
    split at h
    · simp at h; rcases h with h | h <;> subst h <;> simp [isStepEv] at hstep
    · split at h
      · simp at h
        rcases h with h | h | h
        · subst h; simp [isStepEv] at hstep
        · subst h; simp [isStepEv] at hstep
        · exact htail h
      · split at h
        · simp at h
          rcases h with h | h | h
          · subst h; simp [isStepEv] at hstep
          · subst h; simp [isStepEv] at hstep
          · exact htail h
        · split at h
          · simp at h
            rcases h with h | h | h | h
            · subst h; simp [isStepEv] at hstep
            · subst h; simp [isStepEv] at hstep
            · subst h; simp [isStepEv] at hstep
            · exact htail h
          · split at h
            · simp at h; subst h; simp [isStepEv] at hstep
            · split at h
              · simp at h
                rcases h with h | h | h | h
                · subst h; simp [isStepEv] at hstep
                · subst h; simp [isStepEv] at hstep
                · subst h; simp [isStepEv] at hstep
                · exact htail h
              · split at h
                · simp at h
                  rcases h with h | h | h | h
                  · subst h; simp [isStepEv] at hstep
                  · subst h; simp [isStepEv] at hstep
                  · rw [(runStep_mem h).2]; simp
                  · rcases runGroups_mem h with hck | ⟨_, h2⟩
                    · cases e <;> simp [isCheck] at hck <;> simp [isStepEv] at hstep
                    · rw [h2]; simp
                · simp at h
                  rcases h with h | h | h | h | h
                  · subst h; simp [isStepEv] at hstep
                  · subst h; simp [isStepEv] at hstep
                  · rw [(runStep_mem h).2]; simp
                  · rcases runGroups_mem h with hck | ⟨_, h2⟩
                    · cases e <;> simp [isCheck] at hck <;> simp [isStepEv] at hstep
                    · rw [h2]; simp
                  · exact htail h

/-- Step events for a path not in the processed list never appear. -/
lemma performLoop_foreign {env : Env} {fs : List FileWrapper} {idx r : Nat}
    {q : String} (hq : q ∉ fs.map (fun x => x.Path)) :
    (performLoop env fs idx r).1.filter (stepEvOfPath q) = [] := by
  rw [List.filter_eq_nil_iff]
  intro e he
  intro hcon
  simp only [stepEvOfPath, Bool.and_eq_true, beq_iff_eq] at hcon
  exact hq (hcon.2 ▸ performLoop_steps_path he hcon.1)

lemma performLoop_cons_sync_ver {env : Env} {g : FileWrapper}
    (hc : env.cancelAt = none) (hA : env.options.Action = "sync")
    (hv : ¬ g.Version = "") (fs : List FileWrapper) (idx r : Nat) :
    performLoop env (g :: fs) idx r =
      (.checkClosed false :: .printIndex idx env.depCount g.Path ::
          .alreadyVersioned g.Path :: (performLoop env fs (idx + 1) (r + 1)).1,
       (performLoop env fs (idx + 1) (r + 1)).2.1,
       (performLoop env fs (idx + 1) (r + 1)).2.2) := by
  simp [performLoop, hc, closedAt, hA, hv]

lemma performLoop_cons_sync_pipe {env : Env} {g : FileWrapper}
    (hc : env.cancelAt = none) (hA : env.options.Action = "sync")
    (hv : g.Version = "") (fs : List FileWrapper) (idx r : Nat) :
    performLoop env (g :: fs) idx r =
      (.checkClosed false :: .printIndex idx env.depCount g.Path ::
          (runStep env g.Path false .branch).1 ++
          (runGroups env g.Path (runStep env g.Path false .branch).2 (r + 1)
            syncGroups).1 ++
          (performLoop env fs (idx + 1)
            (runGroups env g.Path (runStep env g.Path false .branch).2 (r + 1)
              syncGroups).2.1).1,
       (performLoop env fs (idx + 1)
         (runGroups env g.Path (runStep env g.Path false .branch).2 (r + 1)
           syncGroups).2.1).2.1,
       (performLoop env fs (idx + 1)
         (runGroups env g.Path (runStep env g.Path false .branch).2 (r + 1)
           syncGroups).2.1).2.2) := by
  simp [performLoop, hc, closedAt, hA, hv, runGroups_none_early hc]

/-- The step events the full pipeline of one repository emits are exactly
`expectedPipeline` (branch step followed by the check-guarded groups). -/
lemma pipe_filter_same {env : Env} {p : String} (hc : env.cancelAt = none)
    (r : Nat) :
    (runStep env p false .branch).1.filter (stepEvOfPath p) ++
      (runGroups env p (runStep env p false .branch).2 r syncGroups).1.filter
        (stepEvOfPath p) = expectedPipeline env p := by
  rw [runGroups_none_filter hc]
  have h1 : (runStep env p false .branch).1.filter (stepEvOfPath p) =
      (runStep env p false .branch).1 :=
    List.filter_eq_self.2 (fun e he => by
      rcases runStep_mem he with ⟨h1, h2⟩
      simp [stepEvOfPath, h1, h2])
  rw [h1, runSteps_filter_same]
  have h2 : (runStep env p false .branch).1 ++
      (runSteps env p (runStep env p false .branch).2 (catLists syncGroups)).1 =
      (runSteps env p false (SyncStep.branch :: catLists syncGroups)).1 := by
    simp [runSteps]
  rw [h2, branch_cat_syncGroups, runSteps_false_stepsTrace]
  rfl

lemma branch_filter_other {env : Env} {p q : String} {failed : Bool}
    (hq : q ≠ p) :
    (runStep env p failed .branch).1.filter (stepEvOfPath q) = [] := by
  rw [List.filter_eq_nil_iff]
  intro e he
  rcases runStep_mem he with ⟨h1, h2⟩
  simp [stepEvOfPath, h1, h2, Ne.symm hq]

lemma groups_filter_other {env : Env} {p q : String} {failed : Bool} {r : Nat}
    (hc : env.cancelAt = none) (hq : q ≠ p) :
    (runGroups env p failed r syncGroups).1.filter (stepEvOfPath q) = [] := by
  rw [runGroups_none_filter hc, runSteps_filter_other hq]

/-- With cancellation never triggered and the sync action selected, every
repository of the chain is reached: its index line is printed, its step
events are exactly its expected pipeline when unpinned, and a pinned
version yields the notice and an empty pipeline. -/
lemma performLoop_sync_main {env : Env}
    (hc : env.cancelAt = none) (hA : env.options.Action = "sync") :
    ∀ (fs : List FileWrapper) (idx r : Nat) (f : FileWrapper), f ∈ fs →
      (fs.map (fun x => x.Path)).Nodup →
      ((performLoop env fs idx r).1.filter (stepEvOfPath f.Path) =
        (if f.Version = "" then expectedPipeline env f.Path else [])) ∧
      (∃ i, Event.printIndex i env.depCount f.Path ∈ (performLoop env fs idx r).1) ∧
      (¬ f.Version = "" → Event.alreadyVersioned f.Path ∈ (performLoop env fs idx r).1) := by
  intro fs
  induction fs with
  | nil => intro idx r f hf; exact absurd hf (List.not_mem_nil f)
  | cons g fs ih =>
    intro idx r f hf hnd
    have hnd' : (fs.map (fun x => x.Path)).Nodup := (List.nodup_cons.1 hnd).2
    have hgp : g.Path ∉ fs.map (fun x => x.Path) := (List.nodup_cons.1 hnd).1
    rcases List.mem_cons.1 hf with hfg | hftail
    · subst hfg
      by_cases hv : f.Version = ""
      · rw [performLoop_cons_sync_pipe hc hA hv fs idx r]
        refine ⟨?_, ⟨idx, by simp⟩, by intro hv'; exact absurd hv hv'⟩
        simp only [List.filter_append]
        rw [filter_cons_neg (by rfl), filter_cons_neg (by rfl),
          performLoop_foreign hgp, List.append_nil, pipe_filter_same hc,
          if_pos hv]
      · rw [performLoop_cons_sync_ver hc hA hv fs idx r]
        refine ⟨?_, ⟨idx, by simp⟩, fun _ => by simp⟩
        rw [filter_cons_neg (by rfl), filter_cons_neg (by rfl),
          filter_cons_neg (by rfl), performLoop_foreign hgp, if_neg hv]
    · have hfp : f.Path ≠ g.Path := by
        intro hpp
        exact hgp (hpp ▸ List.mem_map.2 ⟨f, hftail, rfl⟩)
      rcases ih (idx + 1)
        ((runGroups env g.Path (runStep env g.Path false .branch).2 (r + 1)
          syncGroups).2.1) f hftail hnd' with ⟨ih1, ⟨i, ih2⟩, ih3⟩
      rcases ih (idx + 1) (r + 1) f hftail hnd' with ⟨jh1, ⟨j, jh2⟩, jh3⟩
      by_cases hv : g.Version = ""
      · rw [performLoop_cons_sync_pipe hc hA hv fs idx r]
        refine ⟨?_, ⟨i, by simp [ih2]⟩, fun hv' => by simp [ih3 hv']⟩
        simp only [List.filter_append]
        rw [filter_cons_neg (by rfl), filter_cons_neg (by rfl),
          branch_filter_other hfp, groups_filter_other hc hfp, ih1]
        simp
      · rw [performLoop_cons_sync_ver hc hA hv fs idx r]
        refine ⟨?_, ⟨j, by simp [jh2]⟩, fun hv' => by simp [jh3 hv']⟩
        rw [filter_cons_neg (by rfl), filter_cons_neg (by rfl),
          filter_cons_neg (by rfl), jh1]

lemma stash_filter_stepEv (l : List String) (q : String) :
    (l.map Event.stash).filter (stepEvOfPath q) = [] := by
  rw [List.filter_eq_nil_iff]
  intro e he
  rcases List.mem_map.1 he with ⟨x, _, hx⟩
  subst hx
  simp [stepEvOfPath, isStepEv]

lemma wb_filter_stepEv {env : Env} (hx : (warnBlock env).2 = false) (q : String) :
    (warnBlock env).1.filter (stepEvOfPath q) = [] := by
  rw [List.filter_eq_nil_iff]
  intro e he
  rcases warnBlock_no_exit_mem hx he with h' | h' | h' <;> subst h' <;>
    simp [stepEvOfPath, isStepEv]

lemma opt_filter_stepEv (b : Bool) (q : String) :
    (if b then ([] : List Event) else [.waiterWait]).filter (stepEvOfPath q) = [] := by
  cases b <;> rfl

lemma warnBlock_gate {env : Env} (hA : env.options.Action = "sync")
    (hgate : env.options.IgnoreWarning = true ∨ env.warningOk = true) :
    (warnBlock env).2 = false := by
  rcases hgate with h | h
  · simp [warnBlock, hA, h]
  · by_cases hi : env.options.IgnoreWarning = true
    · simp [warnBlock, hA, hi]
    · rw [Bool.not_eq_true] at hi
      simp [warnBlock, hA, hi, h]

/-! ### Claim C3 -/

/-- Claim C3: when a step of one repository's sync pipeline fails, only
that repository's remaining steps are aborted — its step events are
exactly the prefix up to the first failure, which is recorded as a
`StepFailure` — and every repository of the chain is still reached
(its index line is printed), cancellation not having been triggered. -/
theorem C3_step_failure_isolated (mu : MU) (env : Env)
    (hc : env.cancelAt = none) (hA : env.options.Action = "sync")
    (hgate : env.options.IgnoreWarning = true ∨ env.warningOk = true)
    (hauth : env.options.PullRequest = false ∨ env.authLoadOk = true ∨
      env.authSetupOk = true)
    (hnd : (env.chain.map (fun x => x.Path)).Nodup)
    (f : FileWrapper) (hf : f ∈ env.chain) :
    ((performResult mu env).1.filter (stepEvOfPath f.Path) =
      if f.Version = "" then expectedPipeline env f.Path else []) ∧
    (∃ i, Event.printIndex i env.depCount f.Path ∈ (performResult mu env).1) := by
  have hpr : ¬(env.options.PullRequest = true ∧ env.authLoadOk = false ∧
      env.authSetupOk = false) := by
    rcases hauth with h | h | h <;> simp [h]
  have hwb2 := warnBlock_gate hA hgate
  have h := performResult_run mu hpr hwb2
  rcases performLoop_sync_main hc hA env.chain 1 0 f hf hnd with ⟨h1, ⟨i, h2⟩, _⟩
  constructor
  · rw [h]
    simp only [List.filter_append]
    rw [stash_filter_stepEv, wb_filter_stepEv hwb2, opt_filter_stepEv, h1]
    simp
  · refine ⟨i, ?_⟩
    rw [h]
    simp only [List.mem_append]
    exact Or.inl (Or.inr h2)

/-- Repository with a failing commit step for the C3 witness. -/
def envC3 : Env :=
  { options := { Action := "sync", IgnoreWarning := true }
    authLoadOk := true, authSetupOk := true
    discovered := ["B"], chain := [repoB], depCount := 1
    warningOk := true, cancelAt := none
    stepFails := fun p s => p == "B" && s == SyncStep.commit }

theorem C3_step_failure_isolated_witness :
    ((performResult {} envC3).1.filter (stepEvOfPath repoB.Path) =
      if repoB.Version = "" then expectedPipeline envC3 repoB.Path else []) ∧
    (∃ i, Event.printIndex i envC3.depCount repoB.Path ∈ (performResult {} envC3).1) :=
  C3_step_failure_isolated {} envC3 rfl rfl (Or.inl rfl) (Or.inl rfl)
    (by decide) repoB (by decide)

/-! ### Claim C5 -/

/-- Claim C5: a repository of the chain whose resolved version is
non-empty skips its entire sync pipeline — no branch, merge, commit,
push, pull request, branch removal or tag step, and no `StepFailure` —
and records the "Already has version set" notice instead. -/
theorem C5_pinned_version_skips_pipeline (mu : MU) (env : Env)
    (hc : env.cancelAt = none) (hA : env.options.Action = "sync")
    (hgate : env.options.IgnoreWarning = true ∨ env.warningOk = true)
    (hauth : env.options.PullRequest = false ∨ env.authLoadOk = true ∨
      env.authSetupOk = true)
    (hnd : (env.chain.map (fun x => x.Path)).Nodup)
    (f : FileWrapper) (hf : f ∈ env.chain) (hv : ¬ f.Version = "") :
    Event.alreadyVersioned f.Path ∈ (performResult mu env).1 ∧
    (performResult mu env).1.filter (stepEvOfPath f.Path) = [] := by
  have hpr : ¬(env.options.PullRequest = true ∧ env.authLoadOk = false ∧
      env.authSetupOk = false) := by
    rcases hauth with h | h | h <;> simp [h]
  have hwb2 := warnBlock_gate hA hgate
  have h := performResult_run mu hpr hwb2
  rcases performLoop_sync_main hc hA env.chain 1 0 f hf hnd with ⟨h1, _, h3⟩
  constructor
  · rw [h]
    simp only [List.mem_append]
    exact Or.inl (Or.inr (h3 hv))
  · rw [h]
    simp only [List.filter_append]
    rw [stash_filter_stepEv, wb_filter_stepEv hwb2, opt_filter_stepEv, h1,
      if_neg hv]
    simp

/-- Pinned repository for the C5 witness. -/
def repoP : FileWrapper :=
  { Path := "P", modName := "P", Version := "v1.0.0", deps := [] }

def envC5 : Env :=
  { options := { Action := "sync", IgnoreWarning := true }
    authLoadOk := true, authSetupOk := true
    discovered := ["P"], chain := [repoP], depCount := 1
    warningOk := true, cancelAt := none, stepFails := fun _ _ => false }

theorem C5_pinned_version_skips_pipeline_witness :
    Event.alreadyVersioned repoP.Path ∈ (performResult {} envC5).1 ∧
    (performResult {} envC5).1.filter (stepEvOfPath repoP.Path) = [] :=
  C5_pinned_version_skips_pipeline {} envC5 rfl rfl (Or.inl rfl) (Or.inl rfl)
    (by decide) repoP (by decide) (by decide)

/-! ### Claim C7 -/

/-- `l₁` is an initial segment of `l₂`. -/
def leadsList : List Event → List Event → Bool
  | [], _ => true
  | _ :: _, [] => false
  | a :: l₁, b :: l₂ => a == b && leadsList l₁ l₂

/-- The index lines of the chain in order, starting at index `i`. -/
def orderedPrints (env : Env) : Nat → List FileWrapper → List Event
  | _, [] => []
  | i, f :: fs => .printIndex i env.depCount f.Path :: orderedPrints env (i + 1) fs

lemma leadsList_nil (l : List Event) : leadsList [] l = true := by
  cases l <;> rfl

lemma leadsList_cons (a : Event) (l₁ l₂ : List Event)
    (h : leadsList l₁ l₂ = true) : leadsList (a :: l₁) (a :: l₂) = true := by
  simp [leadsList, h]

lemma runStep_filter_print {env : Env} {p : String} {failed : Bool}
    {s : SyncStep} : (runStep env p failed s).1.filter isPrintIndex = [] := by
  rw [List.filter_eq_nil_iff]
  intro e he hcon
  rcases runStep_mem he with ⟨h1, _⟩
  cases e <;> simp [isStepEv] at h1 <;> simp [isPrintIndex] at hcon

lemma runGroups_filter_print {env : Env} {p : String} {failed : Bool}
    {r : Nat} {gs : List (List SyncStep)} :
    (runGroups env p failed r gs).1.filter isPrintIndex = [] := by
  rw [List.filter_eq_nil_iff]
  intro e he hcon
  rcases runGroups_mem he with hck | ⟨h1, _⟩
  · cases e <;> simp [isCheck] at hck <;> simp [isPrintIndex] at hcon
  · cases e <;> simp [isStepEv] at h1 <;> simp [isPrintIndex] at hcon

lemma performLoop_dispatch_action {env : Env} :
    ∀ {fs : List FileWrapper} {idx r : Nat} {e : Event},
      e ∈ (performLoop env fs idx r).1 → isDispatch e = true →
      env.options.Action = "pull" ∨ env.options.Action = "reset" ∨
        env.options.Action = "workflow" := by
  intro fs
  induction fs with
  | nil => intro idx r e h _; simp [performLoop] at h
  | cons f fs ih =>
    intro idx r e h hd
    simp only [performLoop] at h
    split at h
    · simp at h; rcases h with h | h <;> subst h <;> simp [isDispatch] at hd
    · split at h
      · simp at h
        rcases h with h | h | h
        · subst h; simp [isDispatch] at hd
        · subst h; simp [isDispatch] at hd
        · exact ih h hd
      · split at h
        · assumption
        · split at h
          · simp at h
            rcases h with h | h | h | h
            · subst h; simp [isDispatch] at hd
            · subst h; simp [isDispatch] at hd
            · subst h; simp [isDispatch] at hd
            · exact ih h hd
          · split at h
            · simp at h; subst h; simp [isDispatch] at hd
            · split at h
              · simp at h
                rcases h with h | h | h | h
                · subst h; simp [isDispatch] at hd
                · subst h; simp [isDispatch] at hd
                · subst h; simp [isDispatch] at hd
                · exact ih h hd
              · split at h
                · simp at h
                  rcases h with h | h | h | h
                  · subst h; simp [isDispatch] at hd
                  · subst h; simp [isDispatch] at hd
                  · rcases runStep_mem h with ⟨h1, _⟩
                    cases e <;> simp [isStepEv] at h1 <;> simp [isDispatch] at hd
                  · rcases runGroups_mem h with hck | ⟨h1, _⟩
                    · cases e <;> simp [isCheck] at hck <;> simp [isDispatch] at hd
                    · cases e <;> simp [isStepEv] at h1 <;> simp [isDispatch] at hd
                · simp at h
                  rcases h with h | h | h | h | h
                  · subst h; simp [isDispatch] at hd
                  · subst h; simp [isDispatch] at hd
                  · rcases runStep_mem h with ⟨h1, _⟩
                    cases e <;> simp [isStepEv] at h1 <;> simp [isDispatch] at hd
                  · rcases runGroups_mem h with hck | ⟨h1, _⟩
                    · cases e <;> simp [isCheck] at hck <;> simp [isDispatch] at hd
                    · cases e <;> simp [isStepEv] at h1 <;> simp [isDispatch] at hd
                  · exact ih h hd

lemma performLoop_no_dispatch {env : Env}
    (hA3 : env.options.Action = "sync" ∨ env.options.Action = "replace" ∨
      env.options.Action = "test") (fs : List FileWrapper) (idx r : Nat) :
    (performLoop env fs idx r).1.filter isDispatch = [] := by
  rw [List.filter_eq_nil_iff]
  intro e he hcon
  rcases performLoop_dispatch_action he hcon with h | h | h <;>
    rcases hA3 with h' | h' | h' <;> rw [h'] at h <;> simp at h

lemma performLoop_prints_ordered {env : Env}
    (hA3 : env.options.Action = "sync" ∨ env.options.Action = "replace" ∨
      env.options.Action = "test") :
    ∀ (fs : List FileWrapper) (idx r : Nat),
      leadsList ((performLoop env fs idx r).1.filter isPrintIndex)
        (orderedPrints env idx fs) = true := by
  intro fs
  induction fs with
  | nil => intro idx r; rfl
  | cons f fs ih =>
    intro idx r
    by_cases hcl : closedAt env.cancelAt r = true
    · have : (performLoop env (f :: fs) idx r).1 = [.checkClosed true, .waiterWait] := by
        simp [performLoop, hcl]
      rw [this]
      exact leadsList_nil _
    · rw [Bool.not_eq_true] at hcl
      rcases hA3 with hA | hA | hA
      · by_cases hv : f.Version = ""
        · by_cases hge : (runGroups env f.Path
              (runStep env f.Path false .branch).2 (r + 1) syncGroups).2.2 = true
          · have h5 : (performLoop env (f :: fs) idx r).1 =
                (Event.checkClosed false :: .printIndex idx env.depCount f.Path ::
                  (runStep env f.Path false .branch).1) ++
                (runGroups env f.Path (runStep env f.Path false .branch).2 (r + 1)
                  syncGroups).1 := by
              simp [performLoop, hcl, hA, hv, hge]
            rw [h5]
            simp [List.filter_append, List.filter_cons, isPrintIndex,
              runStep_filter_print, runGroups_filter_print, orderedPrints]
            exact leadsList_cons _ _ _ (leadsList_nil _)
          · rw [Bool.not_eq_true] at hge
            have h5 : (performLoop env (f :: fs) idx r).1 =
                ((Event.checkClosed false :: .printIndex idx env.depCount f.Path ::
                  (runStep env f.Path false .branch).1) ++
                (runGroups env f.Path (runStep env f.Path false .branch).2 (r + 1)
                  syncGroups).1) ++
                (performLoop env fs (idx + 1)
                  (runGroups env f.Path (runStep env f.Path false .branch).2 (r + 1)
                    syncGroups).2.1).1 := by
              simp [performLoop, hcl, hA, hv, hge]
            rw [h5]
            simp [List.filter_append, List.filter_cons, isPrintIndex,
              runStep_filter_print, runGroups_filter_print, orderedPrints]
            exact leadsList_cons _ _ _ (ih (idx + 1) _)
        · have h5 : (performLoop env (f :: fs) idx r).1 =
              Event.checkClosed false :: .printIndex idx env.depCount f.Path ::
                .alreadyVersioned f.Path :: (performLoop env fs (idx + 1) (r + 1)).1 := by
            simp [performLoop, hcl, hA, hv]
          rw [h5]
          simp [List.filter_cons, isPrintIndex, orderedPrints]
          exact leadsList_cons _ _ _ (ih (idx + 1) (r + 1))
      · have h5 : (performLoop env (f :: fs) idx r).1 =
            Event.checkClosed false :: .printIndex idx env.depCount f.Path ::
              .seqCall env.options.Action f.Path ::
              (performLoop env fs (idx + 1) (r + 1)).1 := by
          simp [performLoop, hcl, hA]
        rw [h5]
        simp [List.filter_cons, isPrintIndex, orderedPrints]
        exact leadsList_cons _ _ _ (ih (idx + 1) (r + 1))
      · have h5 : (performLoop env (f :: fs) idx r).1 =
            Event.checkClosed false :: .printIndex idx env.depCount f.Path ::
              .seqCall env.options.Action f.Path ::
              (performLoop env fs (idx + 1) (r + 1)).1 := by
          simp [performLoop, hcl, hA]
        rw [h5]
        simp [List.filter_cons, isPrintIndex, orderedPrints]
        exact leadsList_cons _ _ _ (ih (idx + 1) (r + 1))

lemma stash_filter_dispatch (l : List String) :
    (l.map Event.stash).filter isDispatch = [] := by
  rw [List.filter_eq_nil_iff]
  intro e he hcon
  rcases List.mem_map.1 he with ⟨x, _, hx⟩
  subst hx
  simp [isDispatch] at hcon

lemma stash_filter_print (l : List String) :
    (l.map Event.stash).filter isPrintIndex = [] := by
  rw [List.filter_eq_nil_iff]
  intro e he hcon
  rcases List.mem_map.1 he with ⟨x, _, hx⟩
  subst hx
  simp [isPrintIndex] at hcon

lemma wb_filter_dispatch {env : Env} (hx : (warnBlock env).2 = false) :
    (warnBlock env).1.filter isDispatch = [] := by
  rw [List.filter_eq_nil_iff]
  intro e he hcon
  rcases warnBlock_no_exit_mem hx he with h' | h' | h' <;> subst h' <;>
    simp [isDispatch] at hcon

lemma wb_filter_print {env : Env} (hx : (warnBlock env).2 = false) :
    (warnBlock env).1.filter isPrintIndex = [] := by
  rw [List.filter_eq_nil_iff]
  intro e he hcon
  rcases warnBlock_no_exit_mem hx he with h' | h' | h' <;> subst h' <;>
    simp [isPrintIndex] at hcon

lemma opt_filter_dispatch (b : Bool) :
    (if b then ([] : List Event) else [.waiterWait]).filter isDispatch = [] := by
  cases b <;> rfl

lemma opt_filter_print (b : Bool) :
    (if b then ([] : List Event) else [.waiterWait]).filter isPrintIndex = [] := by
  cases b <;> rfl

/-- Claim C7: the order-coupled actions — sync (the default pipeline),
"replace" and "test" — run on the orchestrating thread only: no
worker-pool dispatch happens anywhere in the trace, and the repositories
are visited one at a time in chain order (the printed index lines form an
initial segment of the chain's order, cut short only by cancellation or
the declined warning). -/
theorem C7_sequential_actions_no_pool (mu : MU) (env : Env)
    (hA3 : env.options.Action = "sync" ∨ env.options.Action = "replace" ∨
      env.options.Action = "test") :
    (performResult mu env).1.filter isDispatch = [] ∧
    leadsList ((performResult mu env).1.filter isPrintIndex)
      (orderedPrints env 1 env.chain) = true := by
  by_cases hpr : (env.options.PullRequest = true ∧ env.authLoadOk = false ∧
      env.authSetupOk = false)
  · have h := performResult_auth mu hpr
    rw [h]
    exact ⟨rfl, leadsList_nil _⟩
  · by_cases hx : (warnBlock env).2 = true
    · have h := performResult_exit mu hpr hx
      have ht := warnBlock_exit_trace hx
      rw [h]
      simp only [ht]
      constructor
      · rw [List.filter_append]
        rw [show (env.discovered.map Event.stash).filter isDispatch = [] from
          stash_filter_dispatch env.discovered]
        rfl
      · rw [List.filter_append]
        rw [show (env.discovered.map Event.stash).filter isPrintIndex = [] from
          stash_filter_print env.discovered]
        rw [show ([Event.printWarningLibs (warningLibsList env),
            .printWarningActions (warningActionsList env.options),
            .warn false, .cleanupStash env.discovered,
            .exitProc]).filter isPrintIndex = [] from rfl]
        exact leadsList_nil _
    · rw [Bool.not_eq_true] at hx
      have h := performResult_run mu hpr hx
      rw [h]
      simp only [List.filter_append]
      constructor
      · rw [stash_filter_dispatch env.discovered, wb_filter_dispatch hx,
          performLoop_no_dispatch hA3, opt_filter_dispatch]
        rfl
      · rw [stash_filter_print env.discovered, wb_filter_print hx,
          opt_filter_print]
        simp only [List.append_nil, List.nil_append]
        exact performLoop_prints_ordered hA3 env.chain 1 0

/-! ### Claim C2 -/

/-- `guardedFrom tgt grd prev l`: scanning `l` with `prev` as the
preceding element, every element satisfying `tgt` is immediately preceded
by an element satisfying `grd`. -/
def guardedFrom (tgt grd : Event → Bool) : Event → List Event → Bool
  | _, [] => true
  | prev, e :: rest => (!(tgt e) || grd prev) && guardedFrom tgt grd e rest

/-- Every `tgt` element of `l` is immediately preceded by a `grd`
element (so the first element must not be a target). -/
def guarded (tgt grd : Event → Bool) : List Event → Bool
  | [] => true
  | e :: rest => !(tgt e) && guardedFrom tgt grd e rest

/-- Check and step events: the subsequence the cancellation-checkpoint
claim speaks about for the sync pipeline. -/
def csA (e : Event) : Bool := isCheck e || isStepEv e

/-- Check and pool-dispatch events. -/
def csC (e : Event) : Bool := isCheck e || isDispatch e

/-- Whether an event is the run or recorded failure of step `s`. -/
def isStepOf (s : SyncStep) : Event → Bool
  | .step s' _ => s' == s
  | .stepFailure s' _ => s' == s
  | _ => false

/-- Pipeline step occurrences other than the commit step. -/
def tgtA (e : Event) : Bool := isStepEv e && !(isStepOf .commit e)

/-- After any observed-set check the only remaining event is the
`waiter.Wait()` drain: the call returns at once. -/
def benignAfterCancel : List Event → Bool
  | [] => true
  | .checkClosed true :: rest => rest.all (fun e => e == .waiterWait)
  | _ :: rest => benignAfterCancel rest

/-- No check in the list observes the flag set. -/
def noTrueCheck (l : List Event) : Bool :=
  l.all (fun e => !(e == .checkClosed true))

/-- Concrete sync run for the C2 counterexample: one unpinned repository,
no failures, no cancellation, warning waived. -/
def envC2 : Env :=
  { options := { Action := "sync", IgnoreWarning := true }
    authLoadOk := true, authSetupOk := true
    discovered := ["C"], chain := [repoC], depCount := 1
    warningOk := true, cancelAt := none, stepFails := fun _ _ => false }

/-- Claim C2 counterexample: it is not the case that the `closed` flag is
checked before each step of the sequential sync pipeline.  In the
check/step subsequence of a concrete sync run the commit step directly
follows the dependency-merge step with no check between them
(`ModAddDeps` at line 292 and `commit` at line 294 share the single check
at line 286). -/
theorem C2_counterexample_commit_unchecked :
    guarded isStepEv isCheck ((performResult {} envC2).1.filter csA) = false ∧
    (performResult {} envC2).1.filter csA =
      [.checkClosed false, .step .branch "C",
       .checkClosed false, .step .modAddDeps "C", .step .commit "C",
       .checkClosed false, .step .syncPush "C",
       .checkClosed false, .step .pullRequest "C",
       .checkClosed false, .step .removeBranch "C",
       .checkClosed false, .step .tag "C"] := by
  exact ⟨rfl, rfl⟩

lemma guardedFrom_append (tgt grd : Event → Bool) :
    ∀ (l₁ l₂ : List Event) (p : Event),
      guardedFrom tgt grd p (l₁ ++ l₂) =
        (guardedFrom tgt grd p l₁ && guardedFrom tgt grd (l₁.getLastD p) l₂) := by
  intro l₁
  induction l₁ with
  | nil => intro l₂ p; simp [guardedFrom, List.getLastD]
  | cons a l₁ ih =>
    intro l₂ p
    simp only [List.cons_append, guardedFrom, List.append_eq, ih,
      List.getLastD_cons, Bool.and_assoc]

lemma guardedFrom_no_targets {tgt grd : Event → Bool} :
    ∀ {l : List Event}, (∀ e ∈ l, tgt e = false) →
      ∀ p, guardedFrom tgt grd p l = true := by
  intro l
  induction l with
  | nil => intro _ p; rfl
  | cons e rest ih =>
    intro h p
    simp only [guardedFrom, Bool.and_eq_true]
    refine ⟨by simp [h e (List.mem_cons_self e rest)], ?_⟩
    exact ih (fun x hx => h x (List.mem_cons_of_mem e hx)) e

lemma guarded_eq_from {tgt grd : Event → Bool} {d : Event}
    (h : grd d = false) (l : List Event) :
    guarded tgt grd l = guardedFrom tgt grd d l := by
  cases l <;> simp [guarded, guardedFrom, h]

lemma filter_cons_pos {p : Event → Bool} {e : Event} {l : List Event}
    (h : p e = true) : (e :: l).filter p = e :: l.filter p := by
  simp [List.filter_cons, h]

lemma runGroups_filter_csA {env : Env} {p : String} {failed : Bool} {r : Nat}
    {gs : List (List SyncStep)} :
    (runGroups env p failed r gs).1.filter csA = (runGroups env p failed r gs).1 :=
  List.filter_eq_self.2 (fun e he => by
    rcases runGroups_mem he with hck | ⟨hs, _⟩
    · simp [csA, hck]
    · simp [csA, hs])

lemma syncGroups_shapes :
    ∀ g ∈ syncGroups,
      (∃ s, g = [s] ∧ (s == SyncStep.commit) = false) ∨
        g = [.modAddDeps, .commit] := by
  intro g hg
  simp [syncGroups] at hg
  rcases hg with h | h | h | h | h <;> subst h
  · exact Or.inr rfl
  · exact Or.inl ⟨.syncPush, rfl, rfl⟩
  · exact Or.inl ⟨.pullRequest, rfl, rfl⟩
  · exact Or.inl ⟨.removeBranch, rfl, rfl⟩
  · exact Or.inl ⟨.tag, rfl, rfl⟩

/-- In the raw trace of the check-guarded groups, every non-commit step
occurrence is immediately preceded by a check. -/
lemma groupsGuardedA {env : Env} {p : String} :
    ∀ gs, (∀ g ∈ gs,
        (∃ s, g = [s] ∧ (s == SyncStep.commit) = false) ∨
          g = [.modAddDeps, .commit]) →
      ∀ (failed : Bool) (r : Nat) (prev : Event),
        guardedFrom tgtA isCheck prev (runGroups env p failed r gs).1 = true := by
  intro gs
  induction gs with
  | nil => intro _ failed r prev; rfl
  | cons g gs ih =>
    intro hg failed r prev
    by_cases hcl : closedAt env.cancelAt r = true
    · have h5 : (runGroups env p failed r (g :: gs)).1 = [.checkClosed true] := by
        simp [runGroups, hcl]
      rw [h5]
      simp [guardedFrom, tgtA, isStepEv]
    · rw [Bool.not_eq_true] at hcl
      have h5 : (runGroups env p failed r (g :: gs)).1 =
          (.checkClosed false :: (runSteps env p failed g).1) ++
            (runGroups env p (runSteps env p failed g).2 (r + 1) gs).1 := by
        simp [runGroups, hcl]
      rw [h5, guardedFrom_append, Bool.and_eq_true]
      constructor
      · rcases hg g (List.mem_cons_self g gs) with ⟨s, rfl, hsc⟩ | rfl
        · by_cases hfl : failed = true
          · simp [runSteps, runStep, hfl, guardedFrom, tgtA, isStepEv, isCheck]
          · rw [Bool.not_eq_true] at hfl
            by_cases hsf : env.stepFails p s = true <;>
              simp [runSteps, runStep, hfl, hsf, guardedFrom, tgtA, isStepEv,
                isCheck, isStepOf]
        · by_cases hfl : failed = true
          · simp [runSteps, runStep, hfl, guardedFrom, tgtA, isStepEv, isCheck]
          · rw [Bool.not_eq_true] at hfl
            by_cases h1 : env.stepFails p SyncStep.modAddDeps = true
            · simp [runSteps, runStep, hfl, h1, guardedFrom, tgtA, isStepEv,
                isCheck, isStepOf]
            · rw [Bool.not_eq_true] at h1
              by_cases h2 : env.stepFails p SyncStep.commit = true <;>
                simp [runSteps, runStep, hfl, h1, h2, guardedFrom, tgtA,
                  isStepEv, isCheck, isStepOf]
      · exact ih (fun g' hg' => hg g' (List.mem_cons_of_mem g hg')) _ (r + 1) _

/-- In the raw trace of the check-guarded groups, every commit occurrence
is immediately preceded by the dependency-merge step. -/
lemma groupsGuardedB {env : Env} {p : String} :
    ∀ gs, (∀ g ∈ gs,
        (∃ s, g = [s] ∧ (s == SyncStep.commit) = false) ∨
          g = [.modAddDeps, .commit]) →
      ∀ (failed : Bool) (r : Nat) (prev : Event),
        guardedFrom (isStepOf .commit) (isStepOf .modAddDeps) prev
          (runGroups env p failed r gs).1 = true := by
  intro gs
  induction gs with
  | nil => intro _ failed r prev; rfl
  | cons g gs ih =>
    intro hg failed r prev
    by_cases hcl : closedAt env.cancelAt r = true
    · have h5 : (runGroups env p failed r (g :: gs)).1 = [.checkClosed true] := by
        simp [runGroups, hcl]
      rw [h5]
      simp [guardedFrom, isStepOf]
    · rw [Bool.not_eq_true] at hcl
      have h5 : (runGroups env p failed r (g :: gs)).1 =
          (.checkClosed false :: (runSteps env p failed g).1) ++
            (runGroups env p (runSteps env p failed g).2 (r + 1) gs).1 := by
        simp [runGroups, hcl]
      rw [h5, guardedFrom_append, Bool.and_eq_true]
      constructor
      · rcases hg g (List.mem_cons_self g gs) with ⟨s, rfl, hsc⟩ | rfl
        · by_cases hfl : failed = true
          · simp [runSteps, runStep, hfl, guardedFrom, isStepOf]
          · rw [Bool.not_eq_true] at hfl
            by_cases hsf : env.stepFails p s = true <;>
              simp [runSteps, runStep, hfl, hsf, guardedFrom, isStepOf, hsc]
        · by_cases hfl : failed = true
          · simp [runSteps, runStep, hfl, guardedFrom, isStepOf]
          · rw [Bool.not_eq_true] at hfl
            by_cases h1 : env.stepFails p SyncStep.modAddDeps = true
            · simp [runSteps, runStep, hfl, h1, guardedFrom, isStepOf]
            · rw [Bool.not_eq_true] at h1
              by_cases h2 : env.stepFails p SyncStep.commit = true <;>
                simp [runSteps, runStep, hfl, h1, h2, guardedFrom, isStepOf]
      · exact ih (fun g' hg' => hg g' (List.mem_cons_of_mem g hg')) _ (r + 1) _

/-- Generic loop lemma: with the checkpoint-and-guard structure supplied
for the branch step, the check-guarded groups and the dispatch events,
the filtered trace of the whole loop is guarded, whatever the preceding
event. -/
lemma performLoop_guarded_generic {env : Env} {cs tgt grd : Event → Bool}
    (hcs_check : ∀ b, cs (.checkClosed b) = true)
    (htgt_check : ∀ b, tgt (.checkClosed b) = false)
    (hprint : ∀ i t p, cs (.printIndex i t p) = false)
    (hseq : ∀ a p, cs (.seqCall a p) = false)
    (halready : ∀ p, cs (.alreadyVersioned p) = false)
    (hwait : cs .waiterWait = false)
    (hdisp2 : ∀ a p, tgt (.dispatchPool a p) = false ∨
      grd (.checkClosed false) = true)
    (hbr : ∀ (q : String) (failed : Bool), guardedFrom tgt grd (.checkClosed false)
      ((runStep env q failed .branch).1.filter cs) = true)
    (hgroups : ∀ (q : String) (failed : Bool) (r : Nat) (prev : Event),
      guardedFrom tgt grd prev
        ((runGroups env q failed r syncGroups).1.filter cs) = true) :
    ∀ (fs : List FileWrapper) (idx r : Nat) (prev : Event),
      guardedFrom tgt grd prev ((performLoop env fs idx r).1.filter cs) = true := by
  intro fs
  induction fs with
  | nil => intro idx r prev; rfl
  | cons f fs ih =>
    intro idx r prev
    by_cases hcl : closedAt env.cancelAt r = true
    · have h5 : (performLoop env (f :: fs) idx r).1 =
          [.checkClosed true, .waiterWait] := by
        simp [performLoop, hcl]
      rw [h5, filter_cons_pos (hcs_check true), filter_cons_neg hwait]
      simp [guardedFrom, htgt_check]
    · rw [Bool.not_eq_true] at hcl
      by_cases hL : env.options.Action = "list"
      · have h5 : (performLoop env (f :: fs) idx r).1 =
            .checkClosed false :: .printIndex idx env.depCount f.Path ::
              (performLoop env fs (idx + 1) (r + 1)).1 := by
          simp [performLoop, hcl, hL]
        rw [h5, filter_cons_pos (hcs_check false), filter_cons_neg (hprint _ _ _)]
        simp only [guardedFrom, htgt_check, Bool.not_false, Bool.true_or,
          Bool.true_and]
        exact ih (idx + 1) (r + 1) _
      · by_cases hPu : env.options.Action = "pull"
        · have h5 : (performLoop env (f :: fs) idx r).1 =
              .checkClosed false :: .dispatchPool env.options.Action f.Path ::
                (performLoop env fs (idx + 1) (r + 1)).1 := by
            simp [performLoop, hcl, hL, hPu]
          rw [h5]
          by_cases hd : cs (.dispatchPool env.options.Action f.Path) = true
          · rw [filter_cons_pos (hcs_check false), filter_cons_pos hd]
            simp only [guardedFrom, htgt_check, Bool.not_false, Bool.true_or,
              Bool.true_and, Bool.and_eq_true]
            refine ⟨?_, ih (idx + 1) (r + 1) _⟩
            rcases hdisp2 env.options.Action f.Path with h' | h' <;> simp [h']
          · rw [Bool.not_eq_true] at hd
            rw [filter_cons_pos (hcs_check false), filter_cons_neg hd]
            simp only [guardedFrom, htgt_check, Bool.not_false, Bool.true_or,
              Bool.true_and]
            exact ih (idx + 1) (r + 1) _
        · by_cases hRe : env.options.Action = "reset"
          · have h5 : (performLoop env (f :: fs) idx r).1 =
                .checkClosed false :: .dispatchPool env.options.Action f.Path ::
                  (performLoop env fs (idx + 1) (r + 1)).1 := by
              simp [performLoop, hcl, hL, hPu, hRe]
            rw [h5]
            by_cases hd : cs (.dispatchPool env.options.Action f.Path) = true
            · rw [filter_cons_pos (hcs_check false), filter_cons_pos hd]
              simp only [guardedFrom, htgt_check, Bool.not_false, Bool.true_or,
                Bool.true_and, Bool.and_eq_true]
              refine ⟨?_, ih (idx + 1) (r + 1) _⟩
              rcases hdisp2 env.options.Action f.Path with h' | h' <;> simp [h']
            · rw [Bool.not_eq_true] at hd
              rw [filter_cons_pos (hcs_check false), filter_cons_neg hd]
              simp only [guardedFrom, htgt_check, Bool.not_false, Bool.true_or,
                Bool.true_and]
              exact ih (idx + 1) (r + 1) _
          · by_cases hWo : env.options.Action = "workflow"
            · have h5 : (performLoop env (f :: fs) idx r).1 =
                  .checkClosed false :: .dispatchPool env.options.Action f.Path ::
                    (performLoop env fs (idx + 1) (r + 1)).1 := by
                simp [performLoop, hcl, hL, hPu, hRe, hWo]
              rw [h5]
              by_cases hd : cs (.dispatchPool env.options.Action f.Path) = true
              · rw [filter_cons_pos (hcs_check false), filter_cons_pos hd]
                simp only [guardedFrom, htgt_check, Bool.not_false, Bool.true_or,
                  Bool.true_and, Bool.and_eq_true]
                refine ⟨?_, ih (idx + 1) (r + 1) _⟩
                rcases hdisp2 env.options.Action f.Path with h' | h' <;> simp [h']
              · rw [Bool.not_eq_true] at hd
                rw [filter_cons_pos (hcs_check false), filter_cons_neg hd]
                simp only [guardedFrom, htgt_check, Bool.not_false, Bool.true_or,
                  Bool.true_and]
                exact ih (idx + 1) (r + 1) _
            · by_cases hRp : env.options.Action = "replace"
              · have h5 : (performLoop env (f :: fs) idx r).1 =
                    .checkClosed false :: .printIndex idx env.depCount f.Path ::
                      .seqCall env.options.Action f.Path ::
                      (performLoop env fs (idx + 1) (r + 1)).1 := by
                  simp [performLoop, hcl, hL, hPu, hRe, hWo, hRp]
                rw [h5, filter_cons_pos (hcs_check false),
                  filter_cons_neg (hprint _ _ _), filter_cons_neg (hseq _ _)]
                simp only [guardedFrom, htgt_check, Bool.not_false, Bool.true_or,
                  Bool.true_and]
                exact ih (idx + 1) (r + 1) _
              · by_cases hTe : env.options.Action = "test"
                · have h5 : (performLoop env (f :: fs) idx r).1 =
                      .checkClosed false :: .printIndex idx env.depCount f.Path ::
                        .seqCall env.options.Action f.Path ::
                        (performLoop env fs (idx + 1) (r + 1)).1 := by
                    simp [performLoop, hcl, hL, hPu, hRe, hWo, hRp, hTe]
                  rw [h5, filter_cons_pos (hcs_check false),
                    filter_cons_neg (hprint _ _ _), filter_cons_neg (hseq _ _)]
                  simp only [guardedFrom, htgt_check, Bool.not_false, Bool.true_or,
                    Bool.true_and]
                  exact ih (idx + 1) (r + 1) _
                · by_cases hSe : env.options.Action = "secret"
                  · have h5 : (performLoop env (f :: fs) idx r).1 =
                        [.checkClosed false] := by
                      simp [performLoop, hcl, hL, hPu, hRe, hWo, hRp, hTe, hSe]
                    rw [h5, filter_cons_pos (hcs_check false)]
                    simp [guardedFrom, htgt_check]
                  · by_cases hv : f.Version = ""
                    · by_cases hge : (runGroups env f.Path
                          (runStep env f.Path false .branch).2 (r + 1)
                          syncGroups).2.2 = true
                      · have h5 : (performLoop env (f :: fs) idx r).1 =
                            (Event.checkClosed false ::
                              .printIndex idx env.depCount f.Path ::
                              (runStep env f.Path false .branch).1) ++
                            (runGroups env f.Path
                              (runStep env f.Path false .branch).2 (r + 1)
                              syncGroups).1 := by
                          simp [performLoop, hcl, hL, hPu, hRe, hWo, hRp, hTe,
                            hSe, hv, hge]
                        rw [h5, List.filter_append, filter_cons_pos (hcs_check false),
                          filter_cons_neg (hprint _ _ _), guardedFrom_append,
                          Bool.and_eq_true]
                        constructor
                        · simp only [guardedFrom, htgt_check, Bool.not_false,
                            Bool.true_or, Bool.true_and]
                          exact hbr f.Path false
                        · exact hgroups f.Path _ (r + 1) _
                      · rw [Bool.not_eq_true] at hge
                        have h5 : (performLoop env (f :: fs) idx r).1 =
                            ((Event.checkClosed false ::
                              .printIndex idx env.depCount f.Path ::
                              (runStep env f.Path false .branch).1) ++
                            (runGroups env f.Path
                              (runStep env f.Path false .branch).2 (r + 1)
                              syncGroups).1) ++
                            (performLoop env fs (idx + 1)
                              (runGroups env f.Path
                                (runStep env f.Path false .branch).2 (r + 1)
                                syncGroups).2.1).1 := by
                          simp [performLoop, hcl, hL, hPu, hRe, hWo, hRp, hTe,
                            hSe, hv, hge]
                        rw [h5, List.filter_append, List.filter_append,
                          filter_cons_pos (hcs_check false),
                          filter_cons_neg (hprint _ _ _), guardedFrom_append,
                          Bool.and_eq_true]
                        constructor
                        · rw [guardedFrom_append, Bool.and_eq_true]
                          constructor
                          · simp only [guardedFrom, htgt_check, Bool.not_false,
                              Bool.true_or, Bool.true_and]
                            exact hbr f.Path false
                          · exact hgroups f.Path _ (r + 1) _
                        · exact ih (idx + 1) _ _
                    · have h5 : (performLoop env (f :: fs) idx r).1 =
                          Event.checkClosed false ::
                            .printIndex idx env.depCount f.Path ::
                            .alreadyVersioned f.Path ::
                            (performLoop env fs (idx + 1) (r + 1)).1 := by
                        simp [performLoop, hcl, hL, hPu, hRe, hWo, hRp, hTe,
                          hSe, hv]
                      rw [h5, filter_cons_pos (hcs_check false),
                        filter_cons_neg (hprint _ _ _),
                        filter_cons_neg (halready _)]
                      simp only [guardedFrom, htgt_check, Bool.not_false,
                        Bool.true_or, Bool.true_and]
                      exact ih (idx + 1) (r + 1) _

lemma noTrue_of_mem {l : List Event}
    (h : ∀ e ∈ l, (e == Event.checkClosed true) = false) :
    noTrueCheck l = true := by
  rw [noTrueCheck, List.all_eq_true]
  intro e he
  simp [h e he]

lemma benign_cons_skip {e : Event}
    (he : (e == Event.checkClosed true) = false) (l : List Event) :
    benignAfterCancel (e :: l) = benignAfterCancel l := by
  cases e
  all_goals try rfl
  rename_i b
  cases b
  · rfl
  · simp at he

lemma benign_append {t₀ : List Event} (l : List Event)
    (h : noTrueCheck t₀ = true) :
    benignAfterCancel (t₀ ++ l) = benignAfterCancel l := by
  induction t₀ with
  | nil => rfl
  | cons e t ih =>
    simp only [noTrueCheck, List.all_cons, Bool.and_eq_true] at h
    rw [List.cons_append, benign_cons_skip (by simpa using h.1)]
    exact ih h.2

lemma benign_of_noTrue {t : List Event} (h : noTrueCheck t = true) :
    benignAfterCancel t = true := by
  induction t with
  | nil => rfl
  | cons e l ih =>
    simp only [noTrueCheck, List.all_cons, Bool.and_eq_true] at h
    rw [benign_cons_skip (by simpa using h.1)]
    exact ih h.2

lemma noTrueCheck_append (l₁ l₂ : List Event) :
    noTrueCheck (l₁ ++ l₂) = (noTrueCheck l₁ && noTrueCheck l₂) := by
  simp [noTrueCheck, List.all_append]

lemma noTrue_stash (l : List String) :
    noTrueCheck (l.map Event.stash) = true :=
  noTrue_of_mem (fun e he => by
    rcases List.mem_map.1 he with ⟨x, _, hx⟩
    subst hx
    rfl)

lemma noTrue_runSteps {env : Env} {p : String} {failed : Bool}
    {ss : List SyncStep} : noTrueCheck (runSteps env p failed ss).1 = true :=
  noTrue_of_mem (fun e he => by
    rcases runSteps_mem he with ⟨h1, _⟩
    cases e <;> simp [isStepEv] at h1 <;> rfl)

lemma noTrue_runStep {env : Env} {p : String} {failed : Bool}
    {s : SyncStep} : noTrueCheck (runStep env p failed s).1 = true :=
  noTrue_of_mem (fun e he => by
    rcases runStep_mem he with ⟨h1, _⟩
    cases e <;> simp [isStepEv] at h1 <;> rfl)

/-- The fixed head of a sync iteration contains no observed-set check. -/
lemma noTrue_pipe_head {env : Env} (idx : Nat) (f : FileWrapper) :
    noTrueCheck (Event.checkClosed false ::
      Event.printIndex idx env.depCount f.Path ::
      (runStep env f.Path false .branch).1) = true := by
  rw [show (Event.checkClosed false ::
      Event.printIndex idx env.depCount f.Path ::
      (runStep env f.Path false .branch).1) =
      [Event.checkClosed false,
       Event.printIndex idx env.depCount f.Path] ++
      (runStep env f.Path false .branch).1 from rfl]
  rw [noTrueCheck_append, noTrue_runStep]
  rfl

lemma runGroups_benign_shape (env : Env) (p : String) :
    ∀ (gs : List (List SyncStep)) (failed : Bool) (r : Nat),
      (noTrueCheck (runGroups env p failed r gs).1 = true ∧
        (runGroups env p failed r gs).2.2 = false) ∨
      (∃ t₀, (runGroups env p failed r gs).1 = t₀ ++ [.checkClosed true] ∧
        noTrueCheck t₀ = true ∧ (runGroups env p failed r gs).2.2 = true) := by
  intro gs
  induction gs with
  | nil => intro failed r; exact Or.inl ⟨rfl, rfl⟩
  | cons g gs ih =>
    intro failed r
    by_cases hcl : closedAt env.cancelAt r = true
    · refine Or.inr ⟨[], ?_, rfl, ?_⟩ <;> simp [runGroups, hcl]
    · rw [Bool.not_eq_true] at hcl
      have h5 : (runGroups env p failed r (g :: gs)).1 =
          (.checkClosed false :: (runSteps env p failed g).1) ++
            (runGroups env p (runSteps env p failed g).2 (r + 1) gs).1 := by
        simp [runGroups, hcl]
      have h6 : (runGroups env p failed r (g :: gs)).2.2 =
          (runGroups env p (runSteps env p failed g).2 (r + 1) gs).2.2 := by
        simp [runGroups, hcl]
      have hpre : noTrueCheck (.checkClosed false :: (runSteps env p failed g).1) = true := by
        rw [show (Event.checkClosed false :: (runSteps env p failed g).1) =
          [Event.checkClosed false] ++ (runSteps env p failed g).1 from rfl]
        rw [noTrueCheck_append, noTrue_runSteps]
        rfl
      rcases ih (runSteps env p failed g).2 (r + 1) with ⟨h1, h2⟩ | ⟨t₀, ht, hn, he⟩
      · refine Or.inl ⟨?_, by rw [h6]; exact h2⟩
        rw [h5, noTrueCheck_append, hpre, h1]
        rfl
      · refine Or.inr ⟨(.checkClosed false :: (runSteps env p failed g).1) ++ t₀, ?_, ?_, ?_⟩
        · rw [h5, ht, List.append_assoc]
        · rw [noTrueCheck_append, hpre, hn]
          rfl
        · rw [h6]; exact he

lemma performLoop_benign_shape (env : Env) :
    ∀ (fs : List FileWrapper) (idx r : Nat),
      (noTrueCheck (performLoop env fs idx r).1 = true) ∨
      ((performLoop env fs idx r).2.2 = true ∧ ∃ t₀ tl,
        (performLoop env fs idx r).1 = t₀ ++ .checkClosed true :: tl ∧
        noTrueCheck t₀ = true ∧
        tl.all (fun e => e == Event.waiterWait) = true) := by
  intro fs
  induction fs with
  | nil => intro idx r; exact Or.inl rfl
  | cons f fs ih =>
    intro idx r
    by_cases hcl : closedAt env.cancelAt r = true
    · refine Or.inr ⟨by simp [performLoop, hcl], [], [.waiterWait], ?_, rfl, rfl⟩
      simp [performLoop, hcl]
    · rw [Bool.not_eq_true] at hcl
      have hcons : ∀ (pre : List Event), noTrueCheck pre = true →
          ∀ {t : List Event} {fl : Bool},
          (performLoop env (f :: fs) idx r).1 = pre ++ t →
          (performLoop env (f :: fs) idx r).2.2 = fl →
          ((noTrueCheck t = true) ∨ (fl = true ∧ ∃ t₀ tl,
            t = t₀ ++ .checkClosed true :: tl ∧ noTrueCheck t₀ = true ∧
            tl.all (fun e => e == Event.waiterWait) = true)) →
          ((noTrueCheck (performLoop env (f :: fs) idx r).1 = true) ∨
          ((performLoop env (f :: fs) idx r).2.2 = true ∧ ∃ t₀ tl,
            (performLoop env (f :: fs) idx r).1 = t₀ ++ .checkClosed true :: tl ∧
            noTrueCheck t₀ = true ∧
            tl.all (fun e => e == Event.waiterWait) = true)) := by
        intro pre hpre t fl ht hfl hcase
        rcases hcase with h1 | ⟨h2, t₀, tl, ht', hn, ha⟩
        · refine Or.inl ?_
          rw [ht, noTrueCheck_append, hpre, h1]
          rfl
        · refine Or.inr ⟨by rw [hfl]; exact h2, pre ++ t₀, tl, ?_, ?_, ha⟩
          · rw [ht, ht', List.append_assoc]
          · rw [noTrueCheck_append, hpre, hn]
            rfl
      by_cases hL : env.options.Action = "list"
      · refine hcons [.checkClosed false, .printIndex idx env.depCount f.Path]
          rfl ?_ ?_ (ih (idx + 1) (r + 1)) <;> simp [performLoop, hcl, hL]
      · by_cases hPu : env.options.Action = "pull"
        · refine hcons [.checkClosed false, .dispatchPool env.options.Action f.Path]
            rfl ?_ ?_ (ih (idx + 1) (r + 1)) <;> simp [performLoop, hcl, hL, hPu]
        · by_cases hRe : env.options.Action = "reset"
          · refine hcons [.checkClosed false, .dispatchPool env.options.Action f.Path]
              rfl ?_ ?_ (ih (idx + 1) (r + 1)) <;>
              simp [performLoop, hcl, hL, hPu, hRe]
          · by_cases hWo : env.options.Action = "workflow"
            · refine hcons [.checkClosed false, .dispatchPool env.options.Action f.Path]
                rfl ?_ ?_ (ih (idx + 1) (r + 1)) <;>
                simp [performLoop, hcl, hL, hPu, hRe, hWo]
            · by_cases hRp : env.options.Action = "replace"
              · refine hcons [.checkClosed false,
                  .printIndex idx env.depCount f.Path,
                  .seqCall env.options.Action f.Path]
                  rfl ?_ ?_ (ih (idx + 1) (r + 1)) <;>
                  simp [performLoop, hcl, hL, hPu, hRe, hWo, hRp]
              · by_cases hTe : env.options.Action = "test"
                · refine hcons [.checkClosed false,
                    .printIndex idx env.depCount f.Path,
                    .seqCall env.options.Action f.Path]
                    rfl ?_ ?_ (ih (idx + 1) (r + 1)) <;>
                    simp [performLoop, hcl, hL, hPu, hRe, hWo, hRp, hTe]
                · by_cases hSe : env.options.Action = "secret"
                  · refine Or.inl ?_
                    have h5 : (performLoop env (f :: fs) idx r).1 =
                        [.checkClosed false] := by
                      simp [performLoop, hcl, hL, hPu, hRe, hWo, hRp, hTe, hSe]
                    rw [h5]
                    rfl
                  · by_cases hv : f.Version = ""
                    · rcases runGroups_benign_shape env f.Path
                        syncGroups (runStep env f.Path false .branch).2 (r + 1) with
                        ⟨hg1, hg2⟩ | ⟨t₀, hgt, hgn, hge⟩
                      · have h5 : (performLoop env (f :: fs) idx r).1 =
                            ((Event.checkClosed false ::
                              .printIndex idx env.depCount f.Path ::
                              (runStep env f.Path false .branch).1) ++
                            (runGroups env f.Path
                              (runStep env f.Path false .branch).2 (r + 1)
                              syncGroups).1) ++
                            (performLoop env fs (idx + 1)
                              (runGroups env f.Path
                                (runStep env f.Path false .branch).2 (r + 1)
                                syncGroups).2.1).1 := by
                          simp [performLoop, hcl, hL, hPu, hRe, hWo, hRp, hTe,
                            hSe, hv, hg2]
                        have h6 : (performLoop env (f :: fs) idx r).2.2 =
                            (performLoop env fs (idx + 1)
                              (runGroups env f.Path
                                (runStep env f.Path false .branch).2 (r + 1)
                                syncGroups).2.1).2.2 := by
                          simp [performLoop, hcl, hL, hPu, hRe, hWo, hRp, hTe,
                            hSe, hv, hg2]
                        refine hcons ((Event.checkClosed false ::
                            .printIndex idx env.depCount f.Path ::
                            (runStep env f.Path false .branch).1) ++
                          (runGroups env f.Path
                            (runStep env f.Path false .branch).2 (r + 1)
                            syncGroups).1) ?_ h5 h6
                          (ih (idx + 1) _)
                        rw [noTrueCheck_append, hg1, noTrue_pipe_head]
                        rfl
                      · have h5 : (performLoop env (f :: fs) idx r).1 =
                            (Event.checkClosed false ::
                              .printIndex idx env.depCount f.Path ::
                              (runStep env f.Path false .branch).1) ++
                            (runGroups env f.Path
                              (runStep env f.Path false .branch).2 (r + 1)
                              syncGroups).1 := by
                          simp [performLoop, hcl, hL, hPu, hRe, hWo, hRp, hTe,
                            hSe, hv, hge]
                        have h6 : (performLoop env (f :: fs) idx r).2.2 = true := by
                          simp [performLoop, hcl, hL, hPu, hRe, hWo, hRp, hTe,
                            hSe, hv, hge]
                        refine Or.inr ⟨h6, (Event.checkClosed false ::
                            .printIndex idx env.depCount f.Path ::
                            (runStep env f.Path false .branch).1) ++ t₀, [], ?_, ?_, rfl⟩
                        · rw [h5, hgt, List.append_assoc]
                        · rw [noTrueCheck_append, hgn, noTrue_pipe_head]
                          rfl
                    · refine hcons [.checkClosed false,
                        .printIndex idx env.depCount f.Path,
                        .alreadyVersioned f.Path]
                        rfl ?_ ?_ (ih (idx + 1) (r + 1)) <;>
                        simp [performLoop, hcl, hL, hPu, hRe, hWo, hRp, hTe,
                          hSe, hv]

lemma filter_nil_of_false {cs : Event → Bool} {l : List Event}
    (h : ∀ e ∈ l, cs e = false) : l.filter cs = [] := by
  rw [List.filter_eq_nil_iff]
  intro e he
  simp [h e he]

lemma runStep_mem_of {env : Env} {p : String} {failed : Bool} {s : SyncStep}
    {e : Event} (h : e ∈ (runStep env p failed s).1) :
    e = .step s p ∨ e = .stepFailure s p := by
  unfold runStep at h
  split at h
  · simp at h
  · split at h
    · simp at h; subst h; exact Or.inr rfl
    · simp at h; subst h; exact Or.inl rfl

lemma runStep_filter_csA {env : Env} {p : String} {failed : Bool}
    {s : SyncStep} :
    (runStep env p failed s).1.filter csA = (runStep env p failed s).1 :=
  List.filter_eq_self.2 (fun e he => by
    rcases runStep_mem he with ⟨h1, _⟩
    simp [csA, h1])

lemma gf_check_runStep_A {env : Env} {p : String} {failed : Bool} :
    guardedFrom tgtA isCheck (.checkClosed false)
      (runStep env p failed .branch).1 = true := by
  unfold runStep
  split
  · rfl
  · split <;> simp [guardedFrom, isCheck]

lemma perform_run_filter {mu : MU} {env : Env}
    (hpr : ¬(env.options.PullRequest = true ∧ env.authLoadOk = false ∧
      env.authSetupOk = false))
    (hx : (warnBlock env).2 = false) {cs : Event → Bool}
    (hst : ∀ p, cs (.stash p) = false)
    (hpl : ∀ l, cs (.printWarningLibs l) = false)
    (hpa : ∀ l, cs (.printWarningActions l) = false)
    (hw : ∀ b, cs (.warn b) = false)
    (hwt : cs .waiterWait = false) :
    (performResult mu env).1.filter cs =
      ((performLoop env env.chain 1 0).1).filter cs := by
  have h := performResult_run mu hpr hx
  simp only [h, List.filter_append]
  have h1 : (env.discovered.map Event.stash).filter cs = [] :=
    filter_nil_of_false (fun e he => by
      rcases List.mem_map.1 he with ⟨x, _, hx'⟩
      subst hx'
      exact hst x)
  have h2 : (warnBlock env).1.filter cs = [] :=
    filter_nil_of_false (fun e he => by
      rcases warnBlock_no_exit_mem hx he with h' | h' | h' <;> subst h'
      · exact hpl _
      · exact hpa _
      · exact hw _)
  have h3 : (if (performLoop env env.chain 1 0).2.2 then ([] : List Event)
      else [.waiterWait]).filter cs = [] := by
    split
    · rfl
    · rw [filter_cons_neg hwt]
      rfl
  rw [h1, h2, h3]
  simp

lemma perform_exit_filter {mu : MU} {env : Env}
    (hpr : ¬(env.options.PullRequest = true ∧ env.authLoadOk = false ∧
      env.authSetupOk = false))
    (hx : (warnBlock env).2 = true) {cs : Event → Bool}
    (hst : ∀ p, cs (.stash p) = false)
    (hpl : ∀ l, cs (.printWarningLibs l) = false)
    (hpa : ∀ l, cs (.printWarningActions l) = false)
    (hw : ∀ b, cs (.warn b) = false)
    (hclean : ∀ ds, cs (.cleanupStash ds) = false)
    (hex : cs .exitProc = false) :
    (performResult mu env).1.filter cs = [] := by
  have h := performResult_exit mu hpr hx
  have ht := warnBlock_exit_trace hx
  simp only [h, ht, List.filter_append]
  have h1 : (env.discovered.map Event.stash).filter cs = [] :=
    filter_nil_of_false (fun e he => by
      rcases List.mem_map.1 he with ⟨x, _, hx'⟩
      subst hx'
      exact hst x)
  rw [h1, filter_cons_neg (hpl _), filter_cons_neg (hpa _),
    filter_cons_neg (hw _), filter_cons_neg (hclean _),
    filter_cons_neg hex]
  rfl

lemma performResult_benign (mu : MU) (env : Env) :
    benignAfterCancel (performResult mu env).1 = true := by
  by_cases hpr : (env.options.PullRequest = true ∧ env.authLoadOk = false ∧
      env.authSetupOk = false)
  · have h := performResult_auth mu hpr
    simp only [h]
    rfl
  · by_cases hx : (warnBlock env).2 = true
    · have h := performResult_exit mu hpr hx
      have ht := warnBlock_exit_trace hx
      refine benign_of_noTrue ?_
      simp only [h, ht]
      rw [noTrueCheck_append, noTrue_stash]
      rfl
    · rw [Bool.not_eq_true] at hx
      have h := performResult_run mu hpr hx
      have hwb : noTrueCheck (warnBlock env).1 = true :=
        noTrue_of_mem (fun e he' => by
          rcases warnBlock_no_exit_mem hx he' with h' | h' | h' <;> subst h' <;> rfl)
      rcases performLoop_benign_shape env env.chain 1 0 with
        h1 | ⟨he, t₀, tl, hlt, hln, hla⟩
      · refine benign_of_noTrue ?_
        have hopt : noTrueCheck (if (performLoop env env.chain 1 0).2.2
            then ([] : List Event) else [.waiterWait]) = true := by
          split <;> rfl
        simp only [h]
        rw [noTrueCheck_append, noTrueCheck_append, noTrueCheck_append,
          noTrue_stash, hwb, h1, hopt]
        rfl
      · have hopt : (if (performLoop env env.chain 1 0).2.2
            then ([] : List Event) else [.waiterWait]) = [] := by
          simp [he]
        simp only [h, hopt, List.append_nil]
        rw [hlt]
        rw [show env.discovered.map Event.stash ++ (warnBlock env).1 ++
            (t₀ ++ Event.checkClosed true :: tl) =
            ((env.discovered.map Event.stash ++ (warnBlock env).1) ++ t₀) ++
              (Event.checkClosed true :: tl) from by simp [List.append_assoc]]
        rw [benign_append]
        · exact hla
        · rw [noTrueCheck_append, noTrueCheck_append, noTrue_stash, hwb, hln]
          rfl

/-- Claim C2, amended: the cancellation flag is checked before dispatching
each independent pool task and before each step of the sequential sync
pipeline EXCEPT the commit step, which executes under the same check as
the dependency-merge step (it is immediately preceded by that step, never
by a fresh check); once a check observes the flag set, nothing further
happens beyond the `waiter.Wait()` drain — no new task or step starts and
`perform` returns without processing the remainder of the chain. -/
theorem C2_cancellation_checkpoints_amended (mu : MU) (env : Env) :
    guarded tgtA isCheck ((performResult mu env).1.filter csA) = true ∧
    guarded (isStepOf .commit) (isStepOf .modAddDeps)
      ((performResult mu env).1.filter csA) = true ∧
    guarded isDispatch isCheck ((performResult mu env).1.filter csC) = true ∧
    benignAfterCancel (performResult mu env).1 = true := by
  refine ⟨?_, ?_, ?_, performResult_benign mu env⟩
  · by_cases hpr : (env.options.PullRequest = true ∧ env.authLoadOk = false ∧
        env.authSetupOk = false)
    · have h := performResult_auth mu hpr
      simp only [h]
      rfl
    · by_cases hx : (warnBlock env).2 = true
      · rw [perform_exit_filter hpr hx (fun _ => rfl) (fun _ => rfl)
          (fun _ => rfl) (fun _ => rfl) (fun _ => rfl) rfl]
        rfl
      · rw [Bool.not_eq_true] at hx
        rw [perform_run_filter hpr hx (fun _ => rfl) (fun _ => rfl)
          (fun _ => rfl) (fun _ => rfl) rfl]
        rw [guarded_eq_from (d := .exitProc) rfl]
        refine performLoop_guarded_generic (fun _ => rfl) (fun _ => rfl)
          (fun _ _ _ => rfl) (fun _ _ => rfl) (fun _ => rfl) rfl
          (fun _ _ => Or.inl rfl) ?_ ?_ env.chain 1 0 _
        · intro q failed
          rw [runStep_filter_csA]
          exact gf_check_runStep_A
        · intro q failed r prev
          rw [runGroups_filter_csA]
          exact groupsGuardedA syncGroups syncGroups_shapes failed r prev
  · by_cases hpr : (env.options.PullRequest = true ∧ env.authLoadOk = false ∧
        env.authSetupOk = false)
    · have h := performResult_auth mu hpr
      simp only [h]
      rfl
    · by_cases hx : (warnBlock env).2 = true
      · rw [perform_exit_filter hpr hx (fun _ => rfl) (fun _ => rfl)
          (fun _ => rfl) (fun _ => rfl) (fun _ => rfl) rfl]
        rfl
      · rw [Bool.not_eq_true] at hx
        rw [perform_run_filter hpr hx (fun _ => rfl) (fun _ => rfl)
          (fun _ => rfl) (fun _ => rfl) rfl]
        rw [guarded_eq_from (d := .exitProc) rfl]
        refine performLoop_guarded_generic (fun _ => rfl) (fun _ => rfl)
          (fun _ _ _ => rfl) (fun _ _ => rfl) (fun _ => rfl) rfl
          (fun _ _ => Or.inl rfl) ?_ ?_ env.chain 1 0 _
        · intro q failed
          rw [runStep_filter_csA]
          refine guardedFrom_no_targets ?_ _
          intro e he
          rcases runStep_mem_of he with h' | h' <;> subst h' <;> rfl
        · intro q failed r prev
          rw [runGroups_filter_csA]
          exact groupsGuardedB syncGroups syncGroups_shapes failed r prev
  · by_cases hpr : (env.options.PullRequest = true ∧ env.authLoadOk = false ∧
        env.authSetupOk = false)
    · have h := performResult_auth mu hpr
      simp only [h]
      rfl
    · by_cases hx : (warnBlock env).2 = true
      · rw [perform_exit_filter hpr hx (fun _ => rfl) (fun _ => rfl)
          (fun _ => rfl) (fun _ => rfl) (fun _ => rfl) rfl]
        rfl
      · rw [Bool.not_eq_true] at hx
        rw [perform_run_filter hpr hx (fun _ => rfl) (fun _ => rfl)
          (fun _ => rfl) (fun _ => rfl) rfl]
        rw [guarded_eq_from (d := .exitProc) rfl]
        refine performLoop_guarded_generic (fun _ => rfl) (fun _ => rfl)
          (fun _ _ _ => rfl) (fun _ _ => rfl) (fun _ => rfl) rfl
          (fun _ _ => Or.inr rfl) ?_ ?_ env.chain 1 0 _
        · intro q failed
          rw [show (runStep env q failed .branch).1.filter csC = [] from
            filter_nil_of_false (fun e he => by
              rcases runStep_mem_of he with h' | h' <;> subst h' <;> rfl)]
          rfl
        · intro q failed r prev
          refine guardedFrom_no_targets ?_ _
          intro e he
          rcases List.mem_filter.1 he with ⟨he', _⟩
          rcases runGroups_mem he' with hck | ⟨hs, _⟩
          · cases e <;> simp [isCheck] at hck <;> rfl
          · cases e <;> simp [isStepEv] at hs <;> rfl

/-- Plain "list" run over one repository, for the C1 witness. -/
def envC1w : Env :=
  { options := { Action := "list" }
    authLoadOk := true, authSetupOk := true
    discovered := ["A"], chain := [repoC], depCount := 1
    warningOk := true, cancelAt := none, stepFails := fun _ _ => false }

theorem C1_cleanup_exactly_once_witness :
    (runResult {} envC1w).1.countP isCleanup = 1 ∧ ["A"] = (performResult {} envC1w).2.2 :=
  ⟨(C1_cleanup_exactly_once {} envC1w).1,
   (C1_cleanup_exactly_once {} envC1w).2 ["A"] (by decide)⟩

/-- Concrete "replace" run over two repositories, for the C7 witness. -/
def envC7 : Env :=
  { options := { Action := "replace" }
    authLoadOk := true, authSetupOk := true
    discovered := ["A", "B"], chain := [repoA, repoB], depCount := 2
    warningOk := true, cancelAt := none, stepFails := fun _ _ => false }

theorem C7_sequential_actions_no_pool_witness :
    (performResult {} envC7).1.filter isDispatch = [] ∧
    leadsList ((performResult {} envC7).1.filter isPrintIndex)
      (orderedPrints envC7 1 envC7.chain) = true :=
  C7_sequential_actions_no_pool {} envC7 (Or.inr (Or.inl rfl))

/-! ### Claim C9 -/

/-- Sync run with the confirmation declined, for the C9 counterexample. -/
def envC9 : Env :=
  { options := { Action := "sync" }
    authLoadOk := true, authSetupOk := true
    discovered := ["R"], chain := [repoC], depCount := 1
    warningOk := false, cancelAt := none, stepFails := fun _ _ => false }

/-- Claim C9 counterexample: `RunThen` does not always invoke its callback.
When the user declines the sync confirmation, `perform` calls
`cleanupStash` and then `os.Exit(-1)`, so the process terminates and the
completion callback is never invoked (zero callback events, and the trace
ends in the process exit). -/
theorem C9_counterexample_declined_run_skips_callback :
    (runThenTrace {} envC9).countP isCallback = 0 ∧
    Event.exitProc ∈ runThenTrace {} envC9 := by
  refine ⟨rfl, ?_⟩
  decide

/-- Claim C9, amended: `Run` blocks the caller until the restore of
shelved changes has happened (a `cleanupStash` over the final directory
set is always part of the run trace), and — provided the run did not
terminate the process through the declined sync confirmation —
`RunThen` then invokes the completion callback exactly once, after
everything else. -/
theorem C9_run_then_callback_amended (mu : MU) (env : Env) :
    (Event.cleanupStash (performResult mu env).2.2 ∈ (runResult mu env).1) ∧
    ((performResult mu env).2.1 = false →
      runThenTrace mu env = (runResult mu env).1 ++ [.callback] ∧
      (runThenTrace mu env).countP isCallback = 1) := by
  constructor
  · by_cases hpr : (env.options.PullRequest = true ∧ env.authLoadOk = false ∧
        env.authSetupOk = false)
    · have h := performResult_auth mu hpr
      simp [runResult, h]
    · by_cases hx : (warnBlock env).2 = true
      · have h := performResult_exit mu hpr hx
        have ht := warnBlock_exit_trace hx
        simp only [runResult, h, ht]
        simp
      · rw [Bool.not_eq_true] at hx
        have h := performResult_run mu hpr hx
        simp [runResult, h]
  · intro hex
    have hr2 : (runResult mu env).2 = false := by
      simp [runResult, hex]
    have heq : runThenTrace mu env = (runResult mu env).1 ++ [.callback] := by
      simp [runThenTrace, hr2]
    refine ⟨heq, ?_⟩
    rw [heq, List.countP_append]
    have hz : (runResult mu env).1.countP isCallback = 0 := by
      have hnc : ∀ e ∈ (runResult mu env).1, isCallback e = false := by
        intro e he
        have hperf : ∀ e' ∈ (performResult mu env).1, isCallback e' = false := by
          intro e' he'
          by_cases hpr : (env.options.PullRequest = true ∧
              env.authLoadOk = false ∧ env.authSetupOk = false)
          · have h := performResult_auth mu hpr
            rw [h] at he'
            simp at he'
            subst he'
            rfl
          · by_cases hx : (warnBlock env).2 = true
            · have h := performResult_exit mu hpr hx
              rw [performResult_exit mu hpr hx] at hex
              simp at hex
            · rw [Bool.not_eq_true] at hx
              have h := performResult_run mu hpr hx
              rw [h] at he'
              simp only [List.mem_append] at he'
              rcases he' with ((he' | he') | he') | he'
              · rcases List.mem_map.1 he' with ⟨x, _, hx'⟩
                subst hx'
                rfl
              · rcases warnBlock_no_exit_mem hx he' with h' | h' | h' <;>
                  subst h' <;> rfl
              · exact loopEvent_not_callback (performLoop_mem he')
              · revert he'
                split <;> intro he'
                · simp at he'
                · simp at he'
                  subst he'
                  rfl
        have hru : (runResult mu env).1 =
            (performResult mu env).1 ++
              [.cleanupStash (performResult mu env).2.2] := by
          simp [runResult, hex]
        rw [hru] at he
        rcases List.mem_append.1 he with he | he
        · exact hperf e he
        · simp at he
          subst he
          rfl
      exact countP_zero_of hnc
    rw [hz]
    rfl

/-- Plain "list" run that completes normally, for the C9 witness. -/
def envC9w : Env :=
  { options := { Action := "list" }
    authLoadOk := true, authSetupOk := true
    discovered := ["A"], chain := [repoC], depCount := 1
    warningOk := true, cancelAt := none, stepFails := fun _ _ => false }

theorem C9_run_then_callback_amended_witness :
    (Event.cleanupStash (performResult {} envC9w).2.2 ∈ (runResult {} envC9w).1) ∧
    (runThenTrace {} envC9w = (runResult {} envC9w).1 ++ [.callback] ∧
      (runThenTrace {} envC9w).countP isCallback = 1) :=
  ⟨(C9_run_then_callback_amended {} envC9w).1,
   (C9_run_then_callback_amended {} envC9w).2 rfl⟩

/-! ### Claim C8 -/

/-- Phases of the orchestration loop for an independent action. -/
inductive Phase
  | looping
  | waiting
  | finished
  deriving DecidableEq

/-- Abstract state of the `sizedwaitgroup`-bounded loop of `perform` for
an independent action: `limit` is the pool bound (`GOMAXPROCS`),
`pending` the repositories not yet considered, `active` the dispatched
unfinished tasks, `done` the finished tasks, `skipped` the repositories
skipped by cancellation. -/
structure PoolState where
  limit : Nat
  pending : Nat
  active : Nat
  done : Nat
  skipped : Nat
  cancelled : Bool
  phase : Phase
  deriving DecidableEq

/-- Steps of the pool system, modelling the semantics of
`sizedwaitgroup` (Add blocks while `active = limit`, Done decrements,
Wait blocks until empty) and the loop-top cancellation check. -/
inductive PoolStep : PoolState → PoolState → Prop
  | cancel (s : PoolState) : PoolStep s { s with cancelled := true }
  | dispatch (s : PoolState) (h1 : s.phase = .looping) (h2 : s.cancelled = false)
      (h3 : 0 < s.pending) (h4 : s.active < s.limit) :
      PoolStep s { s with pending := s.pending - 1, active := s.active + 1 }
  | observeCancel (s : PoolState) (h1 : s.phase = .looping)
      (h2 : s.cancelled = true) :
      PoolStep s { s with phase := .waiting, pending := 0, skipped := s.skipped + s.pending }
  | loopDone (s : PoolState) (h1 : s.phase = .looping) (h2 : s.pending = 0) :
      PoolStep s { s with phase := .waiting }
  | taskDone (s : PoolState) (h : 0 < s.active) :
      PoolStep s { s with active := s.active - 1, done := s.done + 1 }
  | waitDone (s : PoolState) (h1 : s.phase = .waiting) (h2 : s.active = 0) :
      PoolStep s { s with phase := .finished }

def initPool (W N : Nat) : PoolState :=
  { limit := W, pending := N, active := 0, done := 0, skipped := 0,
    cancelled := false, phase := .looping }

inductive PoolReachable (W N : Nat) : PoolState → Prop
  | init : PoolReachable W N (initPool W N)
  | step {s s' : PoolState} : PoolReachable W N s → PoolStep s s' →
      PoolReachable W N s'

lemma pool_invariant {W N : Nat} {s : PoolState} (h : PoolReachable W N s) :
    s.limit = W ∧ s.active ≤ W ∧
      s.pending + s.active + s.done + s.skipped = N ∧
      ((s.phase = .waiting ∨ s.phase = .finished) → s.pending = 0) ∧
      (s.phase = .finished → s.active = 0) := by
  induction h with
  | init => simp [initPool]
  | @step t u hr hs ih =>
    rcases ih with ⟨il, ia, isum, ipend, ifin⟩
    cases hs with
    | cancel => exact ⟨il, ia, isum, ipend, ifin⟩
    | dispatch h1 h2 h3 h4 =>
      refine ⟨il, ?_, ?_, ?_, ?_⟩
      · show t.active + 1 ≤ W
        omega
      · show t.pending - 1 + (t.active + 1) + t.done + t.skipped = N
        omega
      · intro hp
        have hp' : t.phase = Phase.waiting ∨ t.phase = Phase.finished := hp
        rw [h1] at hp'
        rcases hp' with hp' | hp' <;> exact absurd hp' (by decide)
      · intro hp
        have hp' : t.phase = Phase.finished := hp
        rw [h1] at hp'
        exact absurd hp' (by decide)
    | observeCancel h1 h2 =>
      refine ⟨il, ia, ?_, fun _ => rfl, ?_⟩
      · show 0 + t.active + t.done + (t.skipped + t.pending) = N
        omega
      · intro hp
        have hp' : Phase.waiting = Phase.finished := hp
        exact absurd hp' (by decide)
    | loopDone h1 h2 =>
      refine ⟨il, ia, isum, fun _ => h2, ?_⟩
      · intro hp
        have hp' : Phase.waiting = Phase.finished := hp
        exact absurd hp' (by decide)
    | taskDone h =>
      refine ⟨il, ?_, ?_, ipend, ?_⟩
      · show t.active - 1 ≤ W
        omega
      · show t.pending + (t.active - 1) + (t.done + 1) + t.skipped = N
        omega
      · intro hp
        have hp' : t.phase = Phase.finished := hp
        have := ifin hp'
        omega
    | waitDone h1 h2 =>
      exact ⟨il, ia, isum, fun _ => ipend (Or.inl h1), fun _ => h2⟩

lemma performLoop_pool_early_wait {env : Env}
    (hA : env.options.Action = "pull" ∨ env.options.Action = "reset" ∨
      env.options.Action = "workflow") :
    ∀ (fs : List FileWrapper) (idx r : Nat),
      (performLoop env fs idx r).2.2 = true →
      ∃ t₀, (performLoop env fs idx r).1 = t₀ ++ [.waiterWait] := by
  intro fs
  induction fs with
  | nil => intro idx r h; simp [performLoop] at h
  | cons f fs ih =>
    intro idx r h
    by_cases hcl : closedAt env.cancelAt r = true
    · refine ⟨[.checkClosed true], ?_⟩
      simp [performLoop, hcl]
    · rw [Bool.not_eq_true] at hcl
      rcases hA with hA | hA | hA
      all_goals (
        have h5 : (performLoop env (f :: fs) idx r).1 =
            .checkClosed false :: .dispatchPool env.options.Action f.Path ::
              (performLoop env fs (idx + 1) (r + 1)).1 ∧
            (performLoop env (f :: fs) idx r).2.2 =
              (performLoop env fs (idx + 1) (r + 1)).2.2 := by
          constructor <;> simp [performLoop, hcl, hA]
        rw [h5.2] at h
        rcases ih (idx + 1) (r + 1) h with ⟨t₀, ht⟩
        refine ⟨.checkClosed false :: .dispatchPool env.options.Action f.Path :: t₀, ?_⟩
        rw [h5.1, ht]
        rfl)

/-- Claim C8: the independent actions (pull, reset, workflow) run under a
worker pool bounded by the host parallelism: in every reachable state of
the pool system at most `W` tasks are active, every repository is
accounted for as pending, active, done or skipped-by-cancellation, and
the finished state has no active task and all repositories done or
skipped; moreover the orchestration trace always ends with the
`waiter.Wait()` drain. -/
theorem C8_bounded_pool_and_drain (W N : Nat) (s : PoolState)
    (hs : PoolReachable W N s) (mu : MU) (env : Env)
    (hA : env.options.Action = "pull" ∨ env.options.Action = "reset" ∨
      env.options.Action = "workflow")
    (hauth : env.options.PullRequest = false ∨ env.authLoadOk = true ∨
      env.authSetupOk = true) :
    (s.active ≤ W ∧ s.pending + s.active + s.done + s.skipped = N ∧
      (s.phase = .finished → s.active = 0 ∧ s.done + s.skipped = N)) ∧
    (performResult mu env).1.getLast? = some .waiterWait := by
  constructor
  · rcases pool_invariant hs with ⟨il, ia, isum, ipend, ifin⟩
    refine ⟨ia, isum, ?_⟩
    intro hf
    have hp := ipend (Or.inr hf)
    have ha := ifin hf
    exact ⟨ha, by omega⟩
  · have hpr : ¬(env.options.PullRequest = true ∧ env.authLoadOk = false ∧
        env.authSetupOk = false) := by
      rcases hauth with h | h | h <;> simp [h]
    have hns : ¬ env.options.Action = "sync" := by
      rcases hA with h | h | h <;> rw [h] <;> simp
    have hx : (warnBlock env).2 = false := by
      simp [warnBlock, hns]
    have hwb1 : (warnBlock env).1 = [] := by
      simp [warnBlock, hns]
    have h := performResult_run mu hpr hx
    by_cases hge : (performLoop env env.chain 1 0).2.2 = true
    · rcases performLoop_pool_early_wait hA env.chain 1 0 hge with ⟨t₀, ht⟩
      have hopt : (if (performLoop env env.chain 1 0).2.2 then ([] : List Event)
          else [.waiterWait]) = [] := by simp [hge]
      simp only [h, hwb1, ht, hopt]
      rw [show (env.discovered.map Event.stash ++ [] ++ (t₀ ++ [Event.waiterWait]) ++
          ([] : List Event)) =
          (env.discovered.map Event.stash ++ t₀) ++ [Event.waiterWait] from by simp]
      exact List.getLast?_concat _
    · rw [Bool.not_eq_true] at hge
      have hopt : (if (performLoop env env.chain 1 0).2.2 then ([] : List Event)
          else [.waiterWait]) = [.waiterWait] := by simp [hge]
      simp only [h, hwb1, hopt]
      rw [show (env.discovered.map Event.stash ++ [] ++
          (performLoop env env.chain 1 0).1 ++ [Event.waiterWait]) =
          (env.discovered.map Event.stash ++
            (performLoop env env.chain 1 0).1) ++ [Event.waiterWait] from by simp]
      exact List.getLast?_concat _

/-- Concrete pool run for the C8 witness: bound 2, three repositories,
one task dispatched. -/
def envC8 : Env :=
  { options := { Action := "pull" }
    authLoadOk := true, authSetupOk := true
    discovered := ["A", "B"], chain := [repoA, repoB], depCount := 2
    warningOk := true, cancelAt := none, stepFails := fun _ _ => false }

theorem C8_bounded_pool_and_drain_witness :
    (((initPool 2 3).pending - 1 + ((initPool 2 3).active + 1) +
        (initPool 2 3).done + (initPool 2 3).skipped = 3) ∧
      (performResult {} envC8).1.getLast? = some .waiterWait) := by
  have h := C8_bounded_pool_and_drain 2 3
    { initPool 2 3 with pending := (initPool 2 3).pending - 1, active := (initPool 2 3).active + 1 }
    (PoolReachable.step PoolReachable.init
      (PoolStep.dispatch (initPool 2 3) rfl rfl (by decide) (by decide)))
    {} envC8 (Or.inl rfl) (Or.inl rfl)
  exact ⟨h.1.2.1, h.2⟩

theorem C4_sync_confirmation_gate_witness :
    ((performResult {} envC4).1.take (envC4.discovered.length + 2) =
        envC4.discovered.map Event.stash ++
          [.printWarningLibs (warningLibsList envC4),
           .printWarningActions (warningActionsList envC4.options)]) ∧
    (envC4.options.IgnoreWarning = false →
      (performResult {} envC4).1.take (envC4.discovered.length + 3) =
        envC4.discovered.map Event.stash ++
          [.printWarningLibs (warningLibsList envC4),
           .printWarningActions (warningActionsList envC4.options),
           .warn envC4.warningOk]) ∧
    (envC4.options.IgnoreWarning = false → envC4.warningOk = false →
      performResult {} envC4 =
        (envC4.discovered.map Event.stash ++
           [.printWarningLibs (warningLibsList envC4),
            .printWarningActions (warningActionsList envC4.options),
            .warn false, .cleanupStash envC4.discovered, .exitProc],
         true, envC4.discovered)) ∧
    (envC4.options.IgnoreWarning = true →
      ∀ b, Event.warn b ∉ (performResult {} envC4).1) :=
  C4_sync_confirmation_gate {} envC4 rfl (Or.inl rfl)

end Gomu
